import Mathlib

/-!
# ADAS ICV150 device support (`devIcv150.c`): embedding and properties

The C file keeps six global arrays of four elements (one slot per card) and
exposes configuration functions that poke 16-bit registers of a VME board.

Conventions of the embedding

* C `int`, `short` and pointers are `Int`; a `NULL` pointer is `0`.
* The value stored through an `unsigned short *` is a `Nat`, reduced modulo
  `2^16` by `toU16`; unsigned 32-bit arithmetic is reduced by `toU32`.
* The global arrays are maps from the C index to the element.  The C arrays
  have `MAX_ICV150_CARDS = 4` elements, so only the indices `0..3` denote
  array elements; the properties below are stated for those indices.
* A function that stores to registers returns the list of its stores, oldest
  first.  `taskDelay` is a pause, not a register access, and is not recorded.
* The functions are `void` and report through `printf`; the message they print
  is returned as a `Msg`.
* C `double` and `float` values are exact rationals: rounding is not modelled.
* Register stores and the global arrays are kept apart: no store through a
  register pointer is taken to land on a global array.
-/

namespace Icv150

/-! ## VME ICV150 defines -/

/-- VME base address. -/
def ICV150_BASE : Int := 0x500000
/-- VME memory length. -/
def ICV150_SIZE : Int := 0x1000
/-- Max. number of boards in a VME crate. -/
def MAX_ICV150_CARDS : Int := 4
/-- Number of differential signals (32+48+48). -/
def ICV150_MAXCHAN : Int := 128
/-- (RD) signal 0 gain code. -/
def RD_GAIN : Int := 0xE00
/-- (WR) last signal number to scan. -/
def CS_SCAN : Int := 0xC00
/-- (WR) oversampling mode. -/
def CS_OVERSAMPLING : Int := 0xA00
/-- (WR) store gain codes in NOVRAM. -/
def CS_STORE : Int := 0x700
/-- (WR) enable external trigger. -/
def CS_EXT : Int := 0x500
/-- (WR) soft trigger. -/
def CS_TRIG : Int := 0x400
/-- (WR) stop scanning. -/
def CS_STOP : Int := 0x300
/-- (WR) start scanning. -/
def CS_START : Int := 0x200
/-- Interrupt level. -/
def IT_LEVEL : Int := 2
/-- Interrupt vector for board 0. -/
def IT_VECTOR : Int := 0xC0
/-- Board interrupt enable bit. -/
def IT_ENABLE : Nat := 0x01
/-- (WR) interrupt register. -/
def CS_WIT : Int := 0x800
/-- (RD) end of conversion state. -/
def CS_RIT : Int := 0x800
/-- Status `OK`. -/
def OK : Int := 0
/-- Status `ERROR`. -/
def ERROR : Int := -1

/-! ## Machine integers -/

/-- Conversion of a C `int` to `unsigned short`. -/
def toU16 (x : Int) : Nat := (x % 65536).toNat

/-- Conversion of a C `int` to `unsigned int` (two's complement bit pattern). -/
def toU32 (x : Int) : Nat := (x % 4294967296).toNat

/-- The C expression `a & b` on `int` operands whose second operand is
non-negative: the bitwise and of the two's complement bit patterns. -/
def cAnd (a : Int) (b : Nat) : Nat := toU32 a &&& b

/-! ## Bus capabilities and global state -/

/-- The two devLib calls used by `mapAddress`: `devMapAddr` turns a VME A24
address into a CPU address (`none` when the status is not `OK`), and
`devReadProbe` tells whether a read probe at a CPU address returns `OK`. -/
structure Bus where
  devMapAddr : Int → Option Int
  devReadProbe : Int → Bool

/-- The global arrays `icv150`, `masks`, `events`, `autoScan`, `lastChan`,
`trigCnt`, each indexed by the card number. -/
structure Registry where
  icv150 : Int → Int
  masks : Int → Nat
  events : Int → Int
  autoScan : Int → Int
  lastChan : Int → Int
  trigCnt : Int → Int

/-- The initializers of the global arrays. -/
def initRegistry : Registry where
  icv150 := fun _ => 0
  masks := fun _ => 0xffff
  events := fun _ => 0
  autoScan := fun _ => 1
  lastChan := fun _ => 31
  trigCnt := fun _ => 0

/-- One store `*pReg = val` through an `unsigned short *` at CPU address `addr`. -/
structure Write where
  addr : Int
  val : Nat
  deriving DecidableEq, Repr

/-- The message a configuration function prints before it returns. -/
inductive Msg where
  | done
  | missingCard
  | invalidArg
  | wrongMode
  deriving DecidableEq, Repr

/-- Outcome of a configuration function: the global arrays afterwards, the
register stores it made, and the message it printed. -/
structure Run where
  st : Registry
  writes : List Write
  msg : Msg

/-- `mapAddress`: CPU address of the card, `NULL` when the address cannot be
mapped or the read probe fails. -/
def mapAddress (bus : Bus) (card : Int) : Int :=
  match bus.devMapAddr (ICV150_BASE + card * ICV150_SIZE) with
  | none => 0
  | some icv150Addr => if bus.devReadProbe icv150Addr then icv150Addr else 0

/-- The store that restarts the scanning mode: `CS_START` when `autoScan[card]`
is set, `CS_EXT` otherwise. -/
def restartWrite (st : Registry) (icv150Addr card : Int) : Write :=
  if st.autoScan card ≠ 0 then ⟨icv150Addr + CS_START, 0⟩ else ⟨icv150Addr + CS_EXT, 0⟩

/-! ## Service and configuration functions -/

/-- `icv150CfgAdc`: selects the ADC resolution. -/
def icv150CfgAdc (bus : Bus) (st : Registry) (card resolution : Int) : Run :=
  if mapAddress bus card = 0 then ⟨st, [], .missingCard⟩
  else if resolution = 12 then
    ⟨{ st with masks := Function.update st.masks card 0x0fff }, [], .done⟩
  else if resolution = 14 then
    ⟨{ st with masks := Function.update st.masks card 0x3fff }, [], .done⟩
  else if resolution = 16 then
    ⟨{ st with masks := Function.update st.masks card 0xffff }, [], .done⟩
  else ⟨st, [], .invalidArg⟩

/-- `icv150CfgScan`: changes the number of signals scanned on the board. -/
def icv150CfgScan (bus : Bus) (st : Registry) (card signal : Int) : Run :=
  let icv150Addr := mapAddress bus card
  if icv150Addr = 0 then ⟨st, [], .missingCard⟩
  else if signal < 1 ∨ signal > ICV150_MAXCHAN then ⟨st, [], .invalidArg⟩
  else
    let st1 := { st with lastChan := Function.update st.lastChan card (signal - 1) }
    ⟨st1,
     [⟨icv150Addr + CS_STOP, 0⟩,
      ⟨icv150Addr + CS_SCAN, toU16 (signal - 1)⟩,
      restartWrite st1 icv150Addr card],
     .done⟩

/-- `icv150OverSampling`: enables or disables the oversampling mode. -/
def icv150OverSampling (bus : Bus) (st : Registry) (card on_ : Int) : Run :=
  let icv150Addr := mapAddress bus card
  if icv150Addr = 0 then ⟨st, [], .missingCard⟩
  else if on_ ≠ 0 then ⟨st, [⟨icv150Addr + CS_OVERSAMPLING, 1⟩], .done⟩
  else ⟨st, [⟨icv150Addr + CS_OVERSAMPLING, 0⟩], .done⟩

/-- `icv150CfgGain`: changes the gain code of an input signal in the on board RAM. -/
def icv150CfgGain (bus : Bus) (st : Registry) (card signal gain : Int) : Run :=
  let icv150Addr := mapAddress bus card
  if icv150Addr = 0 then ⟨st, [], .missingCard⟩
  else
    ⟨st,
     [⟨icv150Addr + CS_STOP, 0⟩,
      ⟨icv150Addr + 2 * signal, cAnd gain 0x0f⟩,
      restartWrite st icv150Addr card],
     .done⟩

/-- `icv150StoreGains`: stores the gain codes in NOVRAM. -/
def icv150StoreGains (bus : Bus) (st : Registry) (card : Int) : Run :=
  let icv150Addr := mapAddress bus card
  if icv150Addr = 0 then ⟨st, [], .missingCard⟩
  else
    ⟨st,
     [⟨icv150Addr + CS_STOP, 0⟩,
      ⟨icv150Addr + CS_STORE, 0⟩,
      restartWrite st icv150Addr card],
     .done⟩

/-- `icv150CfgExtTrig`: stops the acquisition and enables the external trigger. -/
def icv150CfgExtTrig (bus : Bus) (st : Registry) (card event : Int) : Run :=
  let icv150Addr := mapAddress bus card
  if icv150Addr = 0 then ⟨st, [], .missingCard⟩
  else if event < 0 ∨ event > 255 then ⟨st, [], .invalidArg⟩
  else
    ⟨{ st with
        events := Function.update st.events card event
        autoScan := Function.update st.autoScan card 0
        trigCnt := Function.update st.trigCnt card 0 },
     [⟨icv150Addr + CS_STOP, 0⟩, ⟨icv150Addr + CS_EXT, 0⟩],
     .done⟩

/-- `icv150CfgAutoScan`: stops the acquisition and starts automatic scanning. -/
def icv150CfgAutoScan (bus : Bus) (st : Registry) (card : Int) : Run :=
  let icv150Addr := mapAddress bus card
  if icv150Addr = 0 then ⟨st, [], .missingCard⟩
  else
    ⟨{ st with
        autoScan := Function.update st.autoScan card 1
        trigCnt := Function.update st.trigCnt card 0 },
     [⟨icv150Addr + CS_STOP, 0⟩, ⟨icv150Addr + CS_START, 0⟩],
     .done⟩

/-- `icv150SoftTrig`: generates a software trigger, only in external trigger mode. -/
def icv150SoftTrig (bus : Bus) (st : Registry) (card : Int) : Run :=
  if st.autoScan card ≠ 0 then ⟨st, [], .wrongMode⟩
  else
    let icv150Addr := mapAddress bus card
    if icv150Addr = 0 then ⟨st, [], .missingCard⟩
    else ⟨st, [⟨icv150Addr + CS_TRIG, 0⟩], .done⟩

/-- The configuration commands registered with the IOC shell, each with the
arguments its `CallFunc` wrapper passes on. -/
inductive Op where
  | cfgAdc (card resolution : Int)
  | cfgScan (card signal : Int)
  | overSampling (card on_ : Int)
  | cfgGain (card signal gain : Int)
  | storeGains (card : Int)
  | cfgExtTrig (card event : Int)
  | cfgAutoScan (card : Int)
  | softTrig (card : Int)

/-- The card number a command is given. -/
def Op.card : Op → Int
  | .cfgAdc card _ => card
  | .cfgScan card _ => card
  | .overSampling card _ => card
  | .cfgGain card _ _ => card
  | .storeGains card => card
  | .cfgExtTrig card _ => card
  | .cfgAutoScan card => card
  | .softTrig card => card

/-- The `CallFunc` wrappers: each command calls its configuration function. -/
def Op.run (bus : Bus) (st : Registry) : Op → Run
  | .cfgAdc card resolution => icv150CfgAdc bus st card resolution
  | .cfgScan card signal => icv150CfgScan bus st card signal
  | .overSampling card on_ => icv150OverSampling bus st card on_
  | .cfgGain card signal gain => icv150CfgGain bus st card signal gain
  | .storeGains card => icv150StoreGains bus st card
  | .cfgExtTrig card event => icv150CfgExtTrig bus st card event
  | .cfgAutoScan card => icv150CfgAutoScan bus st card
  | .softTrig card => icv150SoftTrig bus st card

/-- A command whose parameter lies outside its documented range: a resolution
other than 12, 14 or 16, a number of signals outside `1..128`, an event outside
`0..255`. -/
def Op.outOfRange : Op → Prop
  | .cfgAdc _ resolution => resolution ≠ 12 ∧ resolution ≠ 14 ∧ resolution ≠ 16
  | .cfgScan _ signal => signal < 1 ∨ 128 < signal
  | .cfgExtTrig _ event => event < 0 ∨ 255 < event
  | _ => False

/-- Shape of a reconfiguration trace on a card: the first store is Stop
(`0x300`), the store `w` of the operation comes later, and the last store is
Start (`0x200`) when `autoScan[card]` is set afterwards and
external-trigger-enable (`0x500`) when it is clear. -/
def FollowsProtocol (bus : Bus) (card : Int) (r : Run) (w : Write) : Prop :=
  r.writes.head? = some ⟨mapAddress bus card + 0x300, 0⟩ ∧
  (∃ i, 0 < i ∧ r.writes[i]? = some w) ∧
  (r.st.autoScan card ≠ 0 → r.writes.getLast? = some ⟨mapAddress bus card + 0x200, 0⟩) ∧
  (r.st.autoScan card = 0 → r.writes.getLast? = some ⟨mapAddress bus card + 0x500, 0⟩)

/-! ## Record device support -/

/-- The `type` of a record link as the `switch` of the init functions sees it:
`vmeLink` is the C constant `VME_IO`, `other` any other link type. -/
inductive LinkType where
  | vmeLink
  | other
  deriving DecidableEq, Repr

/-- The `card` and `signal` members of `struct vmeio`, both C `short`. -/
structure Vmeio where
  card : Int
  signal : Int
  deriving DecidableEq, Repr

/-- The fields of an AO record the device support uses.  `val` stands for the
VAL field once converted to `short` by the assignment `gain = pao->val`. -/
structure AoRecord where
  outType : LinkType
  out : Vmeio
  dpvt : Int
  rval : Int
  val : Int

/-- `init_ao_record`: checks the link and reads back the gain code.  `regs`
gives the content of the 16-bit register at each CPU address. -/
def init_ao_record (st : Registry) (regs : Int → Nat) (pao : AoRecord) :
    AoRecord × List Write × Int :=
  let pao := { pao with dpvt := 0 }
  match pao.outType with
  | .vmeLink =>
    if pao.out.card ≥ MAX_ICV150_CARDS then ({ pao with dpvt := 1 }, [], ERROR)
    else if st.icv150 pao.out.card = 0 then ({ pao with dpvt := 1 }, [], ERROR)
    else if pao.out.signal > st.lastChan pao.out.card then ({ pao with dpvt := 1 }, [], ERROR)
    else
      let icv150Addr := st.icv150 pao.out.card
      let gain := regs (icv150Addr + RD_GAIN + 2 * pao.out.signal) &&& 0x0f
      ({ pao with rval := gain },
       [⟨icv150Addr + CS_STOP, 0⟩, restartWrite st icv150Addr pao.out.card],
       OK)
  | .other => ({ pao with dpvt := 1 }, [], ERROR)

/-- `write_ao`: writes the signal gain code to the on board RAM. -/
def write_ao (st : Registry) (pao : AoRecord) : List Write × Int :=
  if pao.dpvt ≠ 0 then ([], ERROR)
  else
    let icv150Addr := st.icv150 pao.out.card
    ([⟨icv150Addr + CS_STOP, 0⟩,
      ⟨icv150Addr + 2 * pao.out.signal, cAnd pao.val 0x0f⟩,
      restartWrite st icv150Addr pao.out.card],
     0)

/-- The fields of an AI record the device support uses; the `double` fields
EGUF, EGUL and ESLO are carried as exact rationals. -/
structure AiRecord where
  inpType : LinkType
  inp : Vmeio
  dpvt : Int
  rval : Int
  eguf : ℚ
  egul : ℚ
  eslo : ℚ

/-- `init_ai_record`: checks the link and sets the linear conversion slope. -/
def init_ai_record (st : Registry) (pai : AiRecord) : AiRecord × Int :=
  let pai := { pai with dpvt := 0 }
  match pai.inpType with
  | .vmeLink =>
    if pai.inp.card ≥ MAX_ICV150_CARDS then ({ pai with dpvt := 1 }, ERROR)
    else if st.icv150 pai.inp.card = 0 then ({ pai with dpvt := 1 }, ERROR)
    else if pai.inp.signal > st.lastChan pai.inp.card then ({ pai with dpvt := 1 }, ERROR)
    else ({ pai with eslo := (pai.eguf - pai.egul) / (st.masks pai.inp.card : ℚ) }, OK)
  | .other => ({ pai with dpvt := 1 }, ERROR)

/-- `read_ai`: reads the signal value, masked with the ADC resolution mask. -/
def read_ai (st : Registry) (regs : Int → Nat) (pai : AiRecord) : AiRecord × Int :=
  if pai.dpvt ≠ 0 then (pai, ERROR)
  else
    let pReg := st.icv150 pai.inp.card + 2 * pai.inp.signal
    ({ pai with rval := regs pReg &&& st.masks pai.inp.card }, 0)

/-- The database field types the FTVL field of a waveform can name. -/
inductive FieldType where
  | DBF_STRING
  | DBF_CHAR
  | DBF_UCHAR
  | DBF_SHORT
  | DBF_USHORT
  | DBF_LONG
  | DBF_ULONG
  | DBF_INT64
  | DBF_UINT64
  | DBF_FLOAT
  | DBF_DOUBLE
  | DBF_ENUM
  deriving DecidableEq, Repr

/-- The fields of a WAVEFORM record the device support uses.  `nelm` is an
unsigned 32-bit count (`epicsUInt32`); LOPR, HOPR and the elements of the buffer are carried as
exact rationals, whatever the element type. -/
structure WfRecord where
  inpType : LinkType
  inp : Vmeio
  dpvt : Int
  nelm : Nat
  ftvl : FieldType
  lopr : ℚ
  hopr : ℚ
  bptr : List ℚ
  nord : Nat

/-- `init_wf_record`: checks the link, the range of signals and the data type.
The sum `signal + nelm` and the comparison with `lastChan + 1` are unsigned
32-bit, as the usual arithmetic conversions make them. -/
def init_wf_record (st : Registry) (pwf : WfRecord) : WfRecord × Int :=
  let pwf := { pwf with dpvt := 0 }
  match pwf.inpType with
  | .vmeLink =>
    if pwf.inp.card ≥ MAX_ICV150_CARDS then ({ pwf with dpvt := 1 }, ERROR)
    else if st.icv150 pwf.inp.card = 0 then ({ pwf with dpvt := 1 }, ERROR)
    else if pwf.inp.signal > st.lastChan pwf.inp.card then ({ pwf with dpvt := 1 }, ERROR)
    else if toU32 (pwf.inp.signal + pwf.nelm) > toU32 (st.lastChan pwf.inp.card + 1) then
      ({ pwf with dpvt := 1 }, ERROR)
    else
      match pwf.ftvl with
      | .DBF_USHORT | .DBF_LONG | .DBF_ULONG | .DBF_FLOAT | .DBF_DOUBLE => (pwf, OK)
      | _ => ({ pwf with dpvt := 1 }, ERROR)
  | .other => ({ pwf with dpvt := 1 }, ERROR)

/-- `read_wf`: reads `nelm` consecutive registers from the one of `signal` on,
each masked with the ADC resolution mask, and converts them for the two
floating point types when LOPR differs from HOPR.  A data type without a `case`
leaves the buffer as it is.  The loop counter is a C `int`: the loop is taken to
run `nelm` times, which is what it does for `nelm < 2^31`. -/
def read_wf (st : Registry) (regs : Int → Nat) (pwf : WfRecord) : WfRecord × Int :=
  if pwf.dpvt ≠ 0 then (pwf, ERROR)
  else
    let pReg := st.icv150 pwf.inp.card + 2 * pwf.inp.signal
    let raw : Nat → Nat := fun i => regs (pReg + 2 * i) &&& st.masks pwf.inp.card
    let slope : ℚ := (pwf.hopr - pwf.lopr) / (st.masks pwf.inp.card : ℚ)
    let scaled : Nat → ℚ := fun i =>
      if pwf.lopr ≠ pwf.hopr then (raw i : ℚ) * slope + pwf.lopr else (raw i : ℚ)
    let buf : List ℚ :=
      match pwf.ftvl with
      | .DBF_USHORT | .DBF_LONG | .DBF_ULONG => (List.range pwf.nelm).map (fun i => (raw i : ℚ))
      | .DBF_FLOAT | .DBF_DOUBLE => (List.range pwf.nelm).map scaled
      | _ => pwf.bptr
    ({ pwf with bptr := buf, nord := pwf.nelm }, 0)

/-! ## Interrupt service and initialization -/

/-- Outcome of one run of the interrupt service routine: the global arrays
afterwards, the CPU address of the register it reads to release the interrupt,
and the database event it posts, if any. -/
structure Service where
  st : Registry
  readAddr : Int
  posted : Option Int

/-- `icv150_int_service`: releases the interrupt by reading `CS_RIT`, posts the
database event when `events[card] > 0`, and increments `trigCnt[card]`.  The
increment is the mathematical one: it is the C one while `trigCnt[card]` is
below `INT_MAX`. -/
def icv150_int_service (st : Registry) (card : Int) : Service :=
  let icv150Addr := st.icv150 card
  ⟨{ st with trigCnt := Function.update st.trigCnt card (st.trigCnt card + 1) },
   icv150Addr + CS_RIT,
   if st.events card > 0 then some (st.events card) else none⟩

/-- The interrupt service routine of a card run `k` times in a row: the global
arrays at the end and the events posted, oldest first. -/
def serviceTimes (card : Int) : Nat → Registry → Registry × List Int
  | 0, st => (st, [])
  | k + 1, st =>
    let r := icv150_int_service st card
    let rest := serviceTimes card k r.st
    (rest.1, r.posted.toList ++ rest.2)

/-- The two devLib interrupt calls used by `init`, each with the outcome (`true`
for `OK`) of the call made while the slot `card` is handled:
`devConnectInterruptVME vector card` and `devEnableInterruptLevelVME level card`. -/
structure IntCaps where
  devConnectInterruptVME : Int → Int → Bool
  devEnableInterruptLevelVME : Int → Int → Bool

/-- The value `init` stores in the interrupt register of a board:
`(itVector << 8) | ((~IT_LEVEL << 1) & 0x00FE) | IT_ENABLE`, as an
`unsigned short`. -/
def itReg (itVector : Int) : Nat :=
  ((toU32 itVector <<< 8) ||| cAnd ((-IT_LEVEL - 1) * 2) 0x00FE ||| IT_ENABLE) % 65536

/-- Outcome of `init`: the global arrays afterwards, the CPU addresses handed to
`devReadProbe` in order, the `(vector, card)` pairs handed to
`devConnectInterruptVME` in order, the register stores, and the status returned. -/
structure InitRun where
  st : Registry
  probes : List Int
  vectors : List (Int × Int)
  writes : List Write
  status : Int

/-- The loop of `init` over the card slots: `n` slots are left, the next one is
`card`, at CPU address `icv150Addr`. -/
def initCards (bus : Bus) (caps : IntCaps) : Nat → Int → Int → Registry → InitRun
  | 0, _, _, st => ⟨st, [], [], [], OK⟩
  | n + 1, card, icv150Addr, st =>
    if bus.devReadProbe icv150Addr then
      let st1 := { st with icv150 := Function.update st.icv150 card icv150Addr }
      let itVector := IT_VECTOR + card
      if ¬ caps.devConnectInterruptVME itVector card then
        ⟨st1, [icv150Addr], [(itVector, card)], [], ERROR⟩
      else if ¬ caps.devEnableInterruptLevelVME IT_LEVEL card then
        ⟨st1, [icv150Addr], [(itVector, card)], [], ERROR⟩
      else
        let r := initCards bus caps n (card + 1) (icv150Addr + ICV150_SIZE) st1
        ⟨r.st, icv150Addr :: r.probes, (itVector, card) :: r.vectors,
         ⟨icv150Addr + CS_WIT, itReg itVector⟩ :: r.writes, r.status⟩
    else
      let r := initCards bus caps n (card + 1) (icv150Addr + ICV150_SIZE) st
      ⟨r.st, icv150Addr :: r.probes, r.vectors, r.writes, r.status⟩

/-- `init`: initializes the device processing.  Nothing is done on the second
call (`after ≠ 0`); otherwise the base address is mapped and the four slots are
tested in turn. -/
def init (bus : Bus) (caps : IntCaps) (st : Registry) (after : Int) : InitRun :=
  if after ≠ 0 then ⟨st, [], [], [], OK⟩
  else
    match bus.devMapAddr ICV150_BASE with
    | none => ⟨st, [], [], [], ERROR⟩
    | some icv150Addr => initCards bus caps 4 0 icv150Addr st

/-- One call made to the device support: a configuration command, the interrupt
service routine of a card, or `init`; each comes with the answers the devLib
calls give during that call. -/
inductive Call where
  | config (bus : Bus) (op : Op)
  | service (card : Int)
  | init (bus : Bus) (caps : IntCaps) (after : Int)

/-- The card number a call is given, if it has one. -/
def Call.cardOk : Call → Prop
  | .config _ op => 0 ≤ op.card ∧ op.card < 4
  | .service card => 0 ≤ card ∧ card < 4
  | .init _ _ _ => True

/-- The global arrays after a call. -/
def Call.run (st : Registry) : Call → Registry
  | .config bus op => (op.run bus st).st
  | .service card => (icv150_int_service st card).st
  | .init bus caps after => (Icv150.init bus caps st after).st

/-- Whether a call is a run of the interrupt service routine. -/
def Call.isService : Call → Bool
  | .service _ => true
  | _ => false

/-- The global arrays after a sequence of calls, made in order. -/
def runCalls (st : Registry) (calls : List Call) : Registry :=
  calls.foldl Call.run st

/-- The bounds the fields of a card slot are documented with. -/
def SlotInv (st : Registry) (c : Int) : Prop :=
  (0 ≤ st.lastChan c ∧ st.lastChan c < 128) ∧
  (st.masks c = 0x0fff ∨ st.masks c = 0x3fff ∨ st.masks c = 0xffff) ∧
  (0 ≤ st.events c ∧ st.events c ≤ 255) ∧
  0 ≤ st.trigCnt c

/-! ## Concrete crate used to evaluate the functions -/

/-- A crate in which every A24 address maps to itself and only the board at
`ICV150_BASE` (card 0) answers the read probe. -/
def bus0 : Bus where
  devMapAddr := fun a => some a
  devReadProbe := fun a => decide (a = 0x500000)

/-- The global arrays once card 0 of `bus0` has been recorded in `icv150`. -/
def reg0 : Registry :=
  { initRegistry with icv150 := Function.update initRegistry.icv150 0 0x500000 }

/-- An AO record linked to signal 384 of card 0. -/
def aoSignal384 : AoRecord :=
  { outType := .vmeLink, out := ⟨0, 384⟩, dpvt := 0, rval := 0, val := 5 }

/-- An AI record linked to signal 20 of card 0. -/
def aiSignal20 : AiRecord :=
  { inpType := .vmeLink, inp := ⟨0, 20⟩, dpvt := 0, rval := 0, eguf := 10, egul := 0, eslo := 0 }

/-- An AI record linked to signal 8 of card 0. -/
def aiSignal8 : AiRecord :=
  { inpType := .vmeLink, inp := ⟨0, 8⟩, dpvt := 0, rval := 0, eguf := 10, egul := 0, eslo := 0 }

/-- A waveform of unsigned shorts linked to signal 1 of card 0, with the largest
element count an unsigned 32-bit field holds. -/
def wfHuge : WfRecord :=
  { inpType := .vmeLink, inp := ⟨0, 1⟩, dpvt := 0, nelm := 4294967295, ftvl := .DBF_USHORT,
    lopr := 0, hopr := 0, bptr := [], nord := 0 }

/-- The masked content of the register of a signal of a card, the raw ADC
code both read paths deliver: `*pReg & masks[card]` with `pReg` the `signal`-th
`unsigned short` from the card address. -/
def rawAt (st : Registry) (regs : Int → Nat) (card signal : Int) : Nat :=
  regs (st.icv150 card + 2 * signal) &&& st.masks card

/-- A waveform of one double linked to signal 0 of card 0, with display limits
0 and 10. -/
def wfScaled : WfRecord :=
  { inpType := .vmeLink, inp := ⟨0, 0⟩, dpvt := 0, nelm := 1, ftvl := .DBF_DOUBLE,
    lopr := 0, hopr := 10, bptr := [], nord := 0 }

/-- A waveform of four unsigned shorts linked to signal 2 of card 0. -/
def wfRaw : WfRecord :=
  { inpType := .vmeLink, inp := ⟨0, 2⟩, dpvt := 0, nelm := 4, ftvl := .DBF_USHORT,
    lopr := 0, hopr := 0, bptr := [], nord := 0 }

/-- A waveform of four floats linked to signal 2 of card 0, with equal display
limits. -/
def wfFlat : WfRecord :=
  { inpType := .vmeLink, inp := ⟨0, 2⟩, dpvt := 0, nelm := 4, ftvl := .DBF_FLOAT,
    lopr := 5, hopr := 5, bptr := [], nord := 0 }

/-- A crate in which every A24 address maps to itself and the boards of cards
0 and 1 answer the read probe. -/
def busTwo : Bus where
  devMapAddr := fun a => some a
  devReadProbe := fun a => decide (a = 0x500000 ∨ a = 0x501000)

/-- A crate whose base address cannot be mapped. -/
def busUnmapped : Bus where
  devMapAddr := fun _ => none
  devReadProbe := fun _ => true

/-- Interrupt calls that all return `OK`. -/
def capsOk : IntCaps where
  devConnectInterruptVME := fun _ _ => true
  devEnableInterruptLevelVME := fun _ _ => true

/-- Interrupt calls of which only the connection of the routine of card 0 fails. -/
def capsFail0 : IntCaps where
  devConnectInterruptVME := fun _ card => decide (card ≠ 0)
  devEnableInterruptLevelVME := fun _ _ => true

/-- The number of runs of the interrupt service routine in a sequence of calls. -/
def serviceCount (calls : List Call) : Nat :=
  calls.countP Call.isService

/-- A sequence of calls on card 0 of `bus0`: discovery, a rejected and an
accepted number of signals, the external trigger with event 7, two interrupts,
a 12 bit ADC, and a gain write outside the scanned signals. -/
def sampleCalls : List Call :=
  [Call.init bus0 capsOk 0,
   Call.config bus0 (Op.cfgScan 0 200),
   Call.config bus0 (Op.cfgScan 0 8),
   Call.config bus0 (Op.cfgExtTrig 0 7),
   Call.service 0,
   Call.service 0,
   Call.config bus0 (Op.cfgAdc 0 12),
   Call.config bus0 (Op.cfgGain 0 384 (-1))]

/-! # Properties -/

/-! ## Arithmetic of the machine integers -/

/-- Masking a C `int` with `0x0f` keeps its residue modulo 16, also when negative. -/
theorem cAnd_fifteen (g : Int) : cAnd g 0x0f = (g % 16).toNat := by
  unfold cAnd toU32
  have h : (15 : Nat) = 2 ^ 4 - 1 := by norm_num
  rw [h, Nat.and_pow_two_sub_one_eq_mod]
  omega

/-- A masked gain code is a 4-bit value. -/
theorem cAnd_fifteen_lt (g : Int) : cAnd g 0x0f < 16 := by
  rw [cAnd_fifteen]
  omega

/-- C1: on a present card `c` in `0..3` and for `1 ≤ n ≤ 128`, `icv150CfgScan c n`
ends with `lastChan[c] = n - 1` and has stored the value `n - 1` in the
scan-count register (offset `0xC00`) of that card. -/
theorem cfgScan_sets_last_channel (bus : Bus) (st : Registry) (c n : Int)
    (_hc : 0 ≤ c ∧ c < 4) (hp : mapAddress bus c ≠ 0) (hn : 1 ≤ n ∧ n ≤ 128) :
    (icv150CfgScan bus st c n).st.lastChan c = n - 1 ∧
    (⟨mapAddress bus c + 0xC00, (n - 1).toNat⟩ : Write) ∈ (icv150CfgScan bus st c n).writes ∧
    (∀ w ∈ (icv150CfgScan bus st c n).writes,
      w.addr = mapAddress bus c + 0xC00 → (w.val : Int) = n - 1) := by
  obtain ⟨h1, h2⟩ := hn
  have hv : toU16 (n - 1) = (n - 1).toNat := by
    unfold toU16
    rw [Int.emod_eq_of_lt (by omega) (by omega)]
  have hnot : ¬ (n < 1 ∨ n > ICV150_MAXCHAN) := by
    unfold ICV150_MAXCHAN; omega
  simp only [icv150CfgScan, hp, hnot, if_false, Function.update_same, restartWrite,
    CS_SCAN, CS_STOP, CS_START, CS_EXT, hv]
  refine ⟨trivial, by simp, ?_⟩
  intro w hw ha
  simp only [List.mem_cons, List.mem_singleton, List.not_mem_nil, or_false] at hw
  rcases hw with rfl | rfl | rfl
  · simp at ha
  · simp; omega
  · split_ifs at ha <;> simp at ha

/-- Witness of C1: card 0 of `bus0`, eight signals. -/
theorem cfgScan_sets_last_channel_witness :
    (icv150CfgScan bus0 reg0 0 8).st.lastChan 0 = 8 - 1 ∧
    (⟨mapAddress bus0 0 + 0xC00, ((8 : Int) - 1).toNat⟩ : Write) ∈
      (icv150CfgScan bus0 reg0 0 8).writes ∧
    (∀ w ∈ (icv150CfgScan bus0 reg0 0 8).writes,
      w.addr = mapAddress bus0 0 + 0xC00 → (w.val : Int) = 8 - 1) :=
  cfgScan_sets_last_channel bus0 reg0 0 8 (by decide) (by decide) (by decide)

/-- C2: on a present card, `icv150CfgGain card signal g` is never rejected
whatever the gain code `g` (negative or above 15), and the value it stores in the
gain RAM word at byte offset `2 * signal` is `g & 0x0f`, the residue of `g`
modulo 16, a value in `0..15`. -/
theorem cfgGain_truncates_gain (bus : Bus) (st : Registry) (c s g : Int)
    (_hc : 0 ≤ c ∧ c < 4) (hp : mapAddress bus c ≠ 0) :
    (icv150CfgGain bus st c s g).msg = Msg.done ∧
    (icv150CfgGain bus st c s g).writes =
      [⟨mapAddress bus c + 0x300, 0⟩,
       ⟨mapAddress bus c + 2 * s, cAnd g 0x0f⟩,
       restartWrite st (mapAddress bus c) c] ∧
    cAnd g 0x0f = (g % 16).toNat ∧ cAnd g 0x0f < 16 := by
  refine ⟨?_, ?_, cAnd_fifteen g, cAnd_fifteen_lt g⟩ <;>
    simp [icv150CfgGain, hp, CS_STOP]

/-- Witness of C2: the negative gain code `-3` on card 0 of `bus0`. -/
theorem cfgGain_truncates_gain_witness :
    (icv150CfgGain bus0 reg0 0 5 (-3)).msg = Msg.done ∧
    (icv150CfgGain bus0 reg0 0 5 (-3)).writes =
      [⟨mapAddress bus0 0 + 0x300, 0⟩,
       ⟨mapAddress bus0 0 + 2 * 5, cAnd (-3) 0x0f⟩,
       restartWrite reg0 (mapAddress bus0 0) 0] ∧
    cAnd (-3) 0x0f = ((-3 : Int) % 16).toNat ∧ cAnd (-3) 0x0f < 16 :=
  cfgGain_truncates_gain bus0 reg0 0 5 (-3) (by decide) (by decide)

/-- C3: `icv150SoftTrig c` stores to the soft-trigger register (offset `0x400`)
exactly when `autoScan[c] = 0` and the card is present; when `autoScan[c] ≠ 0`
it reports the wrong mode, stores nothing and leaves the global arrays as they
were; and it never stores to Stop, Start or external-trigger-enable. -/
theorem softTrig_only_in_ext_mode (bus : Bus) (st : Registry) (c : Int)
    (_hc : 0 ≤ c ∧ c < 4) :
    ((∃ w ∈ (icv150SoftTrig bus st c).writes, w.addr = mapAddress bus c + 0x400) ↔
      (st.autoScan c = 0 ∧ mapAddress bus c ≠ 0)) ∧
    (st.autoScan c ≠ 0 →
      (icv150SoftTrig bus st c).msg = Msg.wrongMode ∧
      (icv150SoftTrig bus st c).writes = [] ∧
      (icv150SoftTrig bus st c).st = st) ∧
    (∀ w ∈ (icv150SoftTrig bus st c).writes,
      w.addr ≠ mapAddress bus c + 0x300 ∧ w.addr ≠ mapAddress bus c + 0x200 ∧
      w.addr ≠ mapAddress bus c + 0x500) := by
  by_cases ha : st.autoScan c = 0 <;> by_cases hp : mapAddress bus c = 0 <;>
    simp [icv150SoftTrig, ha, hp, CS_TRIG]

/-- Witness of C3: card 0 of `bus0` in the initial (automatic scanning) mode. -/
theorem softTrig_only_in_ext_mode_witness :
    ((∃ w ∈ (icv150SoftTrig bus0 reg0 0).writes, w.addr = mapAddress bus0 0 + 0x400) ↔
      (reg0.autoScan 0 = 0 ∧ mapAddress bus0 0 ≠ 0)) ∧
    (reg0.autoScan 0 ≠ 0 →
      (icv150SoftTrig bus0 reg0 0).msg = Msg.wrongMode ∧
      (icv150SoftTrig bus0 reg0 0).writes = [] ∧
      (icv150SoftTrig bus0 reg0 0).st = reg0) ∧
    (∀ w ∈ (icv150SoftTrig bus0 reg0 0).writes,
      w.addr ≠ mapAddress bus0 0 + 0x300 ∧ w.addr ≠ mapAddress bus0 0 + 0x200 ∧
      w.addr ≠ mapAddress bus0 0 + 0x500) :=
  softTrig_only_in_ext_mode bus0 reg0 0 (by decide)

/-- C4: on a present card `c` and for an event id `e` in `0..255`, whatever
`trigCnt[c]` was, `icv150CfgAutoScan c` followed by `icv150CfgExtTrig c e` leaves
`trigCnt[c] = 0`, `autoScan[c] = 0` and `events[c] = e`; and each of the two
calls on its own succeeds and sets `trigCnt[c]` to 0. -/
theorem autoScan_then_extTrig_resets_count (bus : Bus) (st : Registry) (c e : Int)
    (_hc : 0 ≤ c ∧ c < 4) (hp : mapAddress bus c ≠ 0) (he : 0 ≤ e ∧ e ≤ 255) :
    ((icv150CfgExtTrig bus (icv150CfgAutoScan bus st c).st c e).st.trigCnt c = 0 ∧
     (icv150CfgExtTrig bus (icv150CfgAutoScan bus st c).st c e).st.autoScan c = 0 ∧
     (icv150CfgExtTrig bus (icv150CfgAutoScan bus st c).st c e).st.events c = e) ∧
    ((icv150CfgAutoScan bus st c).msg = Msg.done ∧
     (icv150CfgAutoScan bus st c).st.trigCnt c = 0 ∧
     (icv150CfgAutoScan bus st c).st.autoScan c = 1) ∧
    ((icv150CfgExtTrig bus st c e).msg = Msg.done ∧
     (icv150CfgExtTrig bus st c e).st.trigCnt c = 0) := by
  have hne : ¬ (e < 0 ∨ e > 255) := by omega
  simp [icv150CfgExtTrig, icv150CfgAutoScan, hp, hne]

/-- Witness of C4: card 0 of `bus0`, counter at 41 beforehand, event 7. -/
theorem autoScan_then_extTrig_resets_count_witness :
    ((icv150CfgExtTrig bus0
        (icv150CfgAutoScan bus0 { reg0 with trigCnt := fun _ => 41 } 0).st 0 7).st.trigCnt 0 = 0 ∧
     (icv150CfgExtTrig bus0
        (icv150CfgAutoScan bus0 { reg0 with trigCnt := fun _ => 41 } 0).st 0 7).st.autoScan 0 = 0 ∧
     (icv150CfgExtTrig bus0
        (icv150CfgAutoScan bus0 { reg0 with trigCnt := fun _ => 41 } 0).st 0 7).st.events 0 = 7) ∧
    ((icv150CfgAutoScan bus0 { reg0 with trigCnt := fun _ => 41 } 0).msg = Msg.done ∧
     (icv150CfgAutoScan bus0 { reg0 with trigCnt := fun _ => 41 } 0).st.trigCnt 0 = 0 ∧
     (icv150CfgAutoScan bus0 { reg0 with trigCnt := fun _ => 41 } 0).st.autoScan 0 = 1) ∧
    ((icv150CfgExtTrig bus0 { reg0 with trigCnt := fun _ => 41 } 0 7).msg = Msg.done ∧
     (icv150CfgExtTrig bus0 { reg0 with trigCnt := fun _ => 41 } 0 7).st.trigCnt 0 = 0) :=
  autoScan_then_extTrig_resets_count bus0 { reg0 with trigCnt := fun _ => 41 } 0 7
    (by decide) (by decide) (by decide)

/-- C5: failure is atomic.  For each of the eight configuration commands and a
card in `0..3`, when the card is absent (`mapAddress` returns `NULL`) or the
parameter is out of range (number of signals outside `1..128`, event outside
`0..255`, resolution not 12, 14 or 16), the call reports a failure, stores to no
register and leaves every global array as it was. -/
theorem failure_is_atomic (bus : Bus) (st : Registry) (op : Op)
    (_hc : 0 ≤ op.card ∧ op.card < 4)
    (hf : mapAddress bus op.card = 0 ∨ op.outOfRange) :
    (op.run bus st).writes = [] ∧ (op.run bus st).st = st ∧
    (op.run bus st).msg ≠ Msg.done := by
  cases op with
  | cfgAdc card resolution =>
    by_cases hp : mapAddress bus card = 0
    · simp [Op.run, icv150CfgAdc, hp]
    · rcases hf with h | ⟨h12, h14, h16⟩
      · exact absurd h hp
      · simp [Op.run, icv150CfgAdc, hp, h12, h14, h16]
  | cfgScan card signal =>
    by_cases hp : mapAddress bus card = 0
    · simp [Op.run, icv150CfgScan, hp]
    · rcases hf with h | h
      · exact absurd h hp
      · have hr : signal < 1 ∨ signal > ICV150_MAXCHAN := by
          unfold ICV150_MAXCHAN; rcases h with h | h
          · exact Or.inl h
          · exact Or.inr h
        simp [Op.run, icv150CfgScan, hp, hr]
  | cfgExtTrig card event =>
    by_cases hp : mapAddress bus card = 0
    · simp [Op.run, icv150CfgExtTrig, hp]
    · rcases hf with h | h
      · exact absurd h hp
      · have hr : event < 0 ∨ event > 255 := by
          rcases h with h | h
          · exact Or.inl h
          · exact Or.inr h
        simp [Op.run, icv150CfgExtTrig, hp, hr]
  | overSampling card on_ =>
    have hp : mapAddress bus card = 0 := by simpa [Op.card, Op.outOfRange] using hf
    simp [Op.run, icv150OverSampling, hp]
  | cfgGain card signal gain =>
    have hp : mapAddress bus card = 0 := by simpa [Op.card, Op.outOfRange] using hf
    simp [Op.run, icv150CfgGain, hp]
  | storeGains card =>
    have hp : mapAddress bus card = 0 := by simpa [Op.card, Op.outOfRange] using hf
    simp [Op.run, icv150StoreGains, hp]
  | cfgAutoScan card =>
    have hp : mapAddress bus card = 0 := by simpa [Op.card, Op.outOfRange] using hf
    simp [Op.run, icv150CfgAutoScan, hp]
  | softTrig card =>
    have hp : mapAddress bus card = 0 := by simpa [Op.card, Op.outOfRange] using hf
    by_cases ha : st.autoScan card = 0 <;> simp [Op.run, icv150SoftTrig, hp, ha]

/-- Witness of C5: an event id of 256 on the present card 0 of `bus0`. -/
theorem failure_is_atomic_witness :
    ((Op.cfgExtTrig 0 256).run bus0 reg0).writes = [] ∧
    ((Op.cfgExtTrig 0 256).run bus0 reg0).st = reg0 ∧
    ((Op.cfgExtTrig 0 256).run bus0 reg0).msg ≠ Msg.done :=
  failure_is_atomic bus0 reg0 (Op.cfgExtTrig 0 256) (by decide)
    (Or.inr (Or.inr (by decide)))

/-- C6: quiesce, mutate, resume.  On a present card in `0..3`, each successful
`icv150CfgScan`, `icv150CfgGain`, `icv150StoreGains`, `icv150CfgExtTrig` and
`icv150CfgAutoScan` first stores to Stop, makes its own store after that, and
ends with a store to Start when the card scans automatically afterwards and to
external-trigger-enable when it is in external trigger mode. -/
theorem reconfiguration_follows_protocol (bus : Bus) (st : Registry) (c : Int)
    (_hc : 0 ≤ c ∧ c < 4) (hp : mapAddress bus c ≠ 0) :
    (∀ n : Int, 1 ≤ n → n ≤ 128 →
      (icv150CfgScan bus st c n).msg = Msg.done ∧
      FollowsProtocol bus c (icv150CfgScan bus st c n)
        ⟨mapAddress bus c + 0xC00, (n - 1).toNat⟩) ∧
    (∀ s g : Int,
      (icv150CfgGain bus st c s g).msg = Msg.done ∧
      FollowsProtocol bus c (icv150CfgGain bus st c s g)
        ⟨mapAddress bus c + 2 * s, (g % 16).toNat⟩) ∧
    ((icv150StoreGains bus st c).msg = Msg.done ∧
      FollowsProtocol bus c (icv150StoreGains bus st c) ⟨mapAddress bus c + 0x700, 0⟩) ∧
    (∀ e : Int, 0 ≤ e → e ≤ 255 →
      (icv150CfgExtTrig bus st c e).msg = Msg.done ∧
      FollowsProtocol bus c (icv150CfgExtTrig bus st c e) ⟨mapAddress bus c + 0x500, 0⟩) ∧
    ((icv150CfgAutoScan bus st c).msg = Msg.done ∧
      FollowsProtocol bus c (icv150CfgAutoScan bus st c) ⟨mapAddress bus c + 0x200, 0⟩) := by
  refine ⟨?_, ?_, ?_, ?_, ?_⟩
  · intro n h1 h2
    have hv : toU16 (n - 1) = (n - 1).toNat := by
      unfold toU16
      rw [Int.emod_eq_of_lt (by omega) (by omega)]
    have hnot : ¬ (n < 1 ∨ n > ICV150_MAXCHAN) := by
      unfold ICV150_MAXCHAN; omega
    refine ⟨by simp [icv150CfgScan, hp, hnot], ?_, ⟨1, by decide, ?_⟩, ?_, ?_⟩
    · simp [icv150CfgScan, hp, hnot, CS_STOP]
    · simp [icv150CfgScan, hp, hnot, CS_SCAN, hv]
    · intro ha
      simp only [icv150CfgScan, hp, hnot, if_false, Function.update_same] at ha ⊢
      simp [restartWrite, ha, CS_START]
    · intro ha
      simp only [icv150CfgScan, hp, hnot, if_false, Function.update_same] at ha ⊢
      simp [restartWrite, ha, CS_EXT]
  · intro s g
    refine ⟨by simp [icv150CfgGain, hp], ?_, ⟨1, by decide, ?_⟩, ?_, ?_⟩
    · simp [icv150CfgGain, hp, CS_STOP]
    · simp [icv150CfgGain, hp, cAnd_fifteen]
    · intro ha
      simp only [icv150CfgGain, hp, if_false] at ha ⊢
      simp [restartWrite, ha, CS_START]
    · intro ha
      simp only [icv150CfgGain, hp, if_false] at ha ⊢
      simp [restartWrite, ha, CS_EXT]
  · refine ⟨by simp [icv150StoreGains, hp], ?_, ⟨1, by decide, ?_⟩, ?_, ?_⟩
    · simp [icv150StoreGains, hp, CS_STOP]
    · simp [icv150StoreGains, hp, CS_STORE]
    · intro ha
      simp only [icv150StoreGains, hp, if_false] at ha ⊢
      simp [restartWrite, ha, CS_START]
    · intro ha
      simp only [icv150StoreGains, hp, if_false] at ha ⊢
      simp [restartWrite, ha, CS_EXT]
  · intro e h0 h255
    have hne : ¬ (e < 0 ∨ e > 255) := by omega
    refine ⟨by simp [icv150CfgExtTrig, hp, hne], ?_, ⟨1, by decide, ?_⟩, ?_, ?_⟩
    · simp [icv150CfgExtTrig, hp, hne, CS_STOP]
    · simp [icv150CfgExtTrig, hp, hne, CS_EXT]
    · intro ha
      simp [icv150CfgExtTrig, hp, hne] at ha
    · intro _
      simp [icv150CfgExtTrig, hp, hne, CS_EXT]
  · refine ⟨by simp [icv150CfgAutoScan, hp], ?_, ⟨1, by decide, ?_⟩, ?_, ?_⟩
    · simp [icv150CfgAutoScan, hp, CS_STOP]
    · simp [icv150CfgAutoScan, hp, CS_START]
    · intro _
      simp [icv150CfgAutoScan, hp, CS_START]
    · intro ha
      simp [icv150CfgAutoScan, hp] at ha

/-- Witness of C6: eight signals on card 0 of `bus0`. -/
theorem reconfiguration_follows_protocol_witness :
    (icv150CfgScan bus0 reg0 0 8).msg = Msg.done ∧
    FollowsProtocol bus0 0 (icv150CfgScan bus0 reg0 0 8)
      ⟨mapAddress bus0 0 + 0xC00, ((8 : Int) - 1).toNat⟩ :=
  (reconfiguration_follows_protocol bus0 reg0 0 (by decide) (by decide)).1 8
    (by decide) (by decide)

/-- C7, as stated, fails: on the present card 0 of `bus0`, scanning
automatically, `icv150OverSampling 0 1` makes the single store of 1 to the
oversampling register, so its trace does not start with Stop and does not end
with Start. -/
theorem overSampling_skips_protocol :
    (icv150OverSampling bus0 reg0 0 1).writes = [⟨0x500A00, 1⟩] ∧
    ¬ FollowsProtocol bus0 0 (icv150OverSampling bus0 reg0 0 1)
        ⟨mapAddress bus0 0 + 0xA00, 1⟩ := by
  have hw : (icv150OverSampling bus0 reg0 0 1).writes = [⟨0x500A00, 1⟩] := by decide
  refine ⟨hw, ?_⟩
  rintro ⟨hhead, -⟩
  rw [hw] at hhead
  revert hhead
  decide

/-- C7, amended: on a present card in `0..3`, `icv150OverSampling card on` makes
exactly one register store, to the oversampling register (offset `0xA00`), of 1
when `on ≠ 0` and of 0 when `on = 0`; it succeeds and changes no global array. -/
theorem overSampling_single_store (bus : Bus) (st : Registry) (c on_ : Int)
    (_hc : 0 ≤ c ∧ c < 4) (hp : mapAddress bus c ≠ 0) :
    (icv150OverSampling bus st c on_).writes =
      [⟨mapAddress bus c + 0xA00, if on_ ≠ 0 then 1 else 0⟩] ∧
    (icv150OverSampling bus st c on_).st = st ∧
    (icv150OverSampling bus st c on_).msg = Msg.done := by
  by_cases ho : on_ = 0 <;> simp [icv150OverSampling, hp, ho, CS_OVERSAMPLING]

/-- Witness of the amended C7: oversampling switched on for card 0 of `bus0`. -/
theorem overSampling_single_store_witness :
    (icv150OverSampling bus0 reg0 0 1).writes =
      [⟨mapAddress bus0 0 + 0xA00, if (1 : Int) ≠ 0 then 1 else 0⟩] ∧
    (icv150OverSampling bus0 reg0 0 1).st = reg0 ∧
    (icv150OverSampling bus0 reg0 0 1).msg = Msg.done :=
  overSampling_single_store bus0 reg0 0 1 (by decide) (by decide)

/-- C8, the code at the failing input: with `lastChan[0] = 31`, the call
`icv150CfgGain 0 384 5` on the present card 0 of `bus0` stores the gain code 5
at byte offset `2 * 384 = 0x300`, the Stop register; `init_ao_record` rejects
the same signal, so that `write_ao` stores nothing. -/
theorem cfgGain_unchecked_signal :
    reg0.lastChan 0 = 31 ∧
    (icv150CfgGain bus0 reg0 0 384 5).msg = Msg.done ∧
    (icv150CfgGain bus0 reg0 0 384 5).writes =
      [⟨0x500300, 0⟩, ⟨0x500300, 5⟩, ⟨0x500200, 0⟩] ∧
    (init_ao_record reg0 (fun _ => 0) aoSignal384).2.2 = ERROR ∧
    write_ao reg0 (init_ao_record reg0 (fun _ => 0) aoSignal384).1 = ([], ERROR) := by
  refine ⟨by decide, by decide, by decide, by decide, by decide⟩

/-- C9, as stated, fails: the record of signal 20 on card 0 is accepted while
`lastChan[0] = 31`; after `icv150CfgScan 0 8` has lowered `lastChan[0]` to 7,
`read_ai` still returns a value for it, although `20 > 7` at the time of the read. -/
theorem read_ai_after_rescan_counterexample :
    (init_ai_record reg0 aiSignal20).2 = OK ∧
    (icv150CfgScan bus0 reg0 0 8).st.lastChan 0 = 7 ∧
    (read_ai (icv150CfgScan bus0 reg0 0 8).st (fun _ => 0)
      (init_ai_record reg0 aiSignal20).1).2 = 0 ∧
    ¬ (aiSignal20.inp.signal ≤ (icv150CfgScan bus0 reg0 0 8).st.lastChan 0) := by
  refine ⟨by decide, by decide, by decide, by decide⟩

/-- C9, amended: the address of a single-signal read is checked once, by
`init_ai_record`.  For a link whose card number is not negative, if
`init_ai_record` accepts the record then the card number is below 4, the card is
recorded in `icv150` and `signal ≤ lastChan[card]` holds at that time, and every
later `read_ai` returns the masked register of that signal whatever the global
arrays have become; if it rejects the record, every later `read_ai` fails.  With
eight signals configured on card 0 before the record is initialised, signal 8
is rejected and its read fails. -/
theorem read_ai_checked_at_init (st : Registry) (pai : AiRecord)
    (_hcard : 0 ≤ pai.inp.card) :
    ((init_ai_record st pai).2 = OK →
      pai.inp.card < 4 ∧ st.icv150 pai.inp.card ≠ 0 ∧
      pai.inp.signal ≤ st.lastChan pai.inp.card ∧
      ∀ (st1 : Registry) (regs : Int → Nat),
        (read_ai st1 regs (init_ai_record st pai).1).2 = 0 ∧
        (read_ai st1 regs (init_ai_record st pai).1).1.rval =
          ((regs (st1.icv150 pai.inp.card + 2 * pai.inp.signal) &&&
            st1.masks pai.inp.card : Nat) : Int)) ∧
    ((init_ai_record st pai).2 ≠ OK →
      ∀ (st1 : Registry) (regs : Int → Nat),
        (read_ai st1 regs (init_ai_record st pai).1).2 = ERROR) ∧
    (∀ (bus : Bus) (regs : Int → Nat), mapAddress bus 0 ≠ 0 → pai.inp = ⟨0, 8⟩ →
      (icv150CfgScan bus st 0 8).st.lastChan 0 = 7 ∧
      (init_ai_record (icv150CfgScan bus st 0 8).st pai).2 = ERROR ∧
      (read_ai (icv150CfgScan bus st 0 8).st regs
        (init_ai_record (icv150CfgScan bus st 0 8).st pai).1).2 = ERROR) := by
  refine ⟨?_, ?_, ?_⟩
  · intro hacc
    cases hty : pai.inpType with
    | other => simp [init_ai_record, hty, OK, ERROR] at hacc
    | vmeLink =>
      by_cases h1 : pai.inp.card ≥ MAX_ICV150_CARDS
      · simp [init_ai_record, hty, h1, OK, ERROR] at hacc
      by_cases h2 : st.icv150 pai.inp.card = 0
      · simp [init_ai_record, hty, h1, h2, OK, ERROR] at hacc
      by_cases h3 : pai.inp.signal > st.lastChan pai.inp.card
      · simp [init_ai_record, hty, h1, h2, h3, OK, ERROR] at hacc
      refine ⟨?_, h2, by omega, ?_⟩
      · unfold MAX_ICV150_CARDS at h1; omega
      · intro st1 regs
        simp [init_ai_record, hty, h1, h2, h3, read_ai]
  · intro hrej st1 regs
    cases hty : pai.inpType with
    | other => simp [init_ai_record, hty, read_ai]
    | vmeLink =>
      by_cases h1 : pai.inp.card ≥ MAX_ICV150_CARDS
      · simp [init_ai_record, hty, h1, read_ai]
      by_cases h2 : st.icv150 pai.inp.card = 0
      · simp [init_ai_record, hty, h1, h2, read_ai]
      by_cases h3 : pai.inp.signal > st.lastChan pai.inp.card
      · simp [init_ai_record, hty, h1, h2, h3, read_ai]
      · simp [init_ai_record, hty, h1, h2, h3] at hrej
  · intro bus regs hp hinp
    have hl : (icv150CfgScan bus st 0 8).st.lastChan 0 = 7 := by
      simp [icv150CfgScan, hp, ICV150_MAXCHAN]
    have hlt : ¬ ((0 : Int) ≥ MAX_ICV150_CARDS) := by unfold MAX_ICV150_CARDS; omega
    refine ⟨hl, ?_, ?_⟩
    · cases hty : pai.inpType with
      | other => simp [init_ai_record, hty]
      | vmeLink =>
        by_cases h2 : (icv150CfgScan bus st 0 8).st.icv150 0 = 0
        · simp [init_ai_record, hty, hinp, hlt, h2]
        · simp [init_ai_record, hty, hinp, hlt, h2, hl]
    · cases hty : pai.inpType with
      | other => simp [init_ai_record, hty, read_ai]
      | vmeLink =>
        by_cases h2 : (icv150CfgScan bus st 0 8).st.icv150 0 = 0
        · simp [init_ai_record, hty, hinp, hlt, h2, read_ai]
        · simp [init_ai_record, hty, hinp, hlt, h2, hl, read_ai]

/-- Witness of the amended C9: the record of signal 8 on card 0, eight signals. -/
theorem read_ai_checked_at_init_witness :
    (icv150CfgScan bus0 reg0 0 8).st.lastChan 0 = 7 ∧
    (init_ai_record (icv150CfgScan bus0 reg0 0 8).st aiSignal8).2 = ERROR ∧
    (read_ai (icv150CfgScan bus0 reg0 0 8).st (fun _ => 0)
      (init_ai_record (icv150CfgScan bus0 reg0 0 8).st aiSignal8).1).2 = ERROR :=
  (read_ai_checked_at_init reg0 aiSignal8 (by decide)).2.2 bus0 (fun _ => 0)
    (by decide) (by decide)

/-- Where the range check of `init_wf_record` is exact: for a VME link to a
recorded card, a signal number that is not negative, `lastChan` in `0..127`, a
supported data type and a count for which `signal + nelm` stays below `2^32`,
the record is accepted exactly when `signal ≤ lastChan` and
`signal + nelm - 1 ≤ lastChan`. -/
theorem init_wf_record_range_exact (st : Registry) (pwf : WfRecord)
    (hty : pwf.inpType = LinkType.vmeLink)
    (hc : 0 ≤ pwf.inp.card ∧ pwf.inp.card < 4) (hp : st.icv150 pwf.inp.card ≠ 0)
    (hs : 0 ≤ pwf.inp.signal)
    (hl : 0 ≤ st.lastChan pwf.inp.card ∧ st.lastChan pwf.inp.card < 128)
    (hn : pwf.inp.signal + pwf.nelm < 4294967296)
    (hf : pwf.ftvl = FieldType.DBF_USHORT ∨ pwf.ftvl = FieldType.DBF_LONG ∨
      pwf.ftvl = FieldType.DBF_ULONG ∨ pwf.ftvl = FieldType.DBF_FLOAT ∨
      pwf.ftvl = FieldType.DBF_DOUBLE) :
    (init_wf_record st pwf).2 = OK ↔
      (pwf.inp.signal ≤ st.lastChan pwf.inp.card ∧
       pwf.inp.signal + pwf.nelm - 1 ≤ st.lastChan pwf.inp.card) := by
  have h1 : ¬ (pwf.inp.card ≥ MAX_ICV150_CARDS) := by unfold MAX_ICV150_CARDS; omega
  have hu1 : toU32 (pwf.inp.signal + pwf.nelm) = (pwf.inp.signal + pwf.nelm).toNat := by
    unfold toU32
    rw [Int.emod_eq_of_lt (by omega) (by omega)]
  have hu2 : toU32 (st.lastChan pwf.inp.card + 1) = (st.lastChan pwf.inp.card + 1).toNat := by
    unfold toU32
    rw [Int.emod_eq_of_lt (by omega) (by omega)]
  by_cases h3 : pwf.inp.signal > st.lastChan pwf.inp.card
  · have : ¬ (pwf.inp.signal ≤ st.lastChan pwf.inp.card) := by omega
    simp [init_wf_record, hty, h1, hp, h3, OK, ERROR, this]
  by_cases h4 : toU32 (pwf.inp.signal + pwf.nelm) > toU32 (st.lastChan pwf.inp.card + 1)
  · have : ¬ (pwf.inp.signal + pwf.nelm - 1 ≤ st.lastChan pwf.inp.card) := by
      rw [hu1, hu2] at h4; omega
    simp [init_wf_record, hty, h1, hp, h3, h4, OK, ERROR, this]
  · have h5 : pwf.inp.signal + pwf.nelm - 1 ≤ st.lastChan pwf.inp.card := by
      rw [hu1, hu2] at h4; omega
    have h6 : pwf.inp.signal ≤ st.lastChan pwf.inp.card := by omega
    rcases hf with h | h | h | h | h <;>
      simp [init_wf_record, hty, h1, hp, h3, h4, OK, h, h5, h6]


/-- A record that is not marked bad is read: `read_wf` returns 0 and sets NORD
to NELM. -/
theorem read_wf_good (st : Registry) (regs : Int → Nat) (pwf : WfRecord)
    (h : pwf.dpvt = 0) :
    (read_wf st regs pwf).2 = 0 ∧ (read_wf st regs pwf).1.nord = pwf.nelm := by
  simp [read_wf, h]

/-- A record marked bad is not read: `read_wf` returns `ERROR` and leaves the
record, its buffer included, as it is. -/
theorem read_wf_bad (st : Registry) (regs : Int → Nat) (pwf : WfRecord)
    (h : pwf.dpvt ≠ 0) : read_wf st regs pwf = (pwf, ERROR) := by
  simp [read_wf, h]

/-- C10, the code at the failing input: for the waveform of signal 1 on card 0
with `nelm = 2^32 - 1` and `lastChan[0] = 31`, the unsigned sum `signal + nelm`
wraps to 0, so `init_wf_record` returns `OK` and does not mark the record bad,
although `signal + nelm - 1 = 2^32 - 1 > 31`. -/
theorem init_wf_record_sum_wraps :
    reg0.lastChan 0 = 31 ∧
    wfHuge.inp.signal + (wfHuge.nelm : Int) - 1 > reg0.lastChan 0 ∧
    toU32 (wfHuge.inp.signal + (wfHuge.nelm : Int)) = 0 ∧
    (init_wf_record reg0 wfHuge).2 = OK ∧
    (init_wf_record reg0 wfHuge).1.dpvt = 0 := by
  have hacc : init_wf_record reg0 wfHuge = (wfHuge, OK) := by
    have hsum : toU32 4294967296 = 0 := by decide
    have hlim : toU32 32 = 32 := by decide
    simp [init_wf_record, wfHuge, reg0, initRegistry, MAX_ICV150_CARDS, hsum, hlim]
  refine ⟨by decide, by decide, by decide, ?_, ?_⟩
  · rw [hacc]
  · rw [hacc]; rfl

/-! ## Waveform reads -/

/-- An accepted waveform record is left as it was, with DPVT cleared. -/
theorem init_wf_record_accepts (st : Registry) (pwf : WfRecord)
    (h : (init_wf_record st pwf).2 = OK) :
    (init_wf_record st pwf).1 = { pwf with dpvt := 0 } := by
  cases hty : pwf.inpType with
  | other => simp [init_wf_record, hty, OK, ERROR] at h
  | vmeLink =>
    by_cases h1 : pwf.inp.card ≥ MAX_ICV150_CARDS
    · simp [init_wf_record, hty, h1, OK, ERROR] at h
    by_cases h2 : st.icv150 pwf.inp.card = 0
    · simp [init_wf_record, hty, h1, h2, OK, ERROR] at h
    by_cases h3 : pwf.inp.signal > st.lastChan pwf.inp.card
    · simp [init_wf_record, hty, h1, h2, h3, OK, ERROR] at h
    by_cases h4 : toU32 (pwf.inp.signal + pwf.nelm) > toU32 (st.lastChan pwf.inp.card + 1)
    · simp [init_wf_record, hty, h1, h2, h3, h4, OK, ERROR] at h
    cases hf : pwf.ftvl <;>
      simp [init_wf_record, hty, h1, h2, h3, h4, hf, OK, ERROR] at h ⊢

/-- The buffer `read_wf` fills for a raw data type: the masked registers. -/
theorem read_wf_raw_buffer (st : Registry) (regs : Int → Nat) (pwf : WfRecord)
    (hd : pwf.dpvt = 0)
    (hf : pwf.ftvl = FieldType.DBF_USHORT ∨ pwf.ftvl = FieldType.DBF_LONG ∨
      pwf.ftvl = FieldType.DBF_ULONG) :
    (read_wf st regs pwf).1.bptr =
      (List.range pwf.nelm).map (fun (i : Nat) =>
        ((regs (st.icv150 pwf.inp.card + 2 * pwf.inp.signal + 2 * (i : Int)) &&&
          st.masks pwf.inp.card : Nat) : ℚ)) := by
  rcases hf with h | h | h <;>
    simp only [read_wf, hd, h, ne_eq, not_true_eq_false, if_false]

/-- The buffer `read_wf` fills for a floating point data type. -/
theorem read_wf_scaled_buffer (st : Registry) (regs : Int → Nat) (pwf : WfRecord)
    (hd : pwf.dpvt = 0)
    (hf : pwf.ftvl = FieldType.DBF_FLOAT ∨ pwf.ftvl = FieldType.DBF_DOUBLE) :
    (read_wf st regs pwf).1.bptr =
      (List.range pwf.nelm).map (fun (i : Nat) =>
        if pwf.lopr ≠ pwf.hopr then
          ((regs (st.icv150 pwf.inp.card + 2 * pwf.inp.signal + 2 * (i : Int)) &&&
            st.masks pwf.inp.card : Nat) : ℚ) *
            ((pwf.hopr - pwf.lopr) / (st.masks pwf.inp.card : ℚ)) + pwf.lopr
        else
          ((regs (st.icv150 pwf.inp.card + 2 * pwf.inp.signal + 2 * (i : Int)) &&&
            st.masks pwf.inp.card : Nat) : ℚ)) := by
  rcases hf with h | h <;>
    simp only [read_wf, hd, h, ne_eq, not_true_eq_false, if_false]

/-- The element of index `i` of a list built over `List.range`. -/
theorem getElem?_map_range {α : Type} (f : Nat → α) (n i : Nat) (hi : i < n) :
    ((List.range n).map f)[i]? = some (f i) := by
  simp [List.getElem?_range hi]

/-- The address of the `i`-th register read by `read_wf` is the one of signal
`signal + i`. -/
theorem rawAt_offset (st : Registry) (regs : Int → Nat) (card signal : Int) (i : Nat) :
    regs (st.icv150 card + 2 * signal + 2 * (i : Int)) &&& st.masks card =
      rawAt st regs card (signal + i) := by
  unfold rawAt
  rw [mul_add, add_assoc]

/-- C11: for every register content, every mask and every accepted waveform
(of fewer than `2^31` elements), `read_wf` in a floating point format with
`LOPR = HOPR` fills the buffer with the same values as in the `DBF_USHORT`
format on the same registers, namely `register[signal + i] & mask`, unscaled. -/
theorem scaled_read_with_equal_limits_is_raw (st : Registry) (regs : Int → Nat)
    (pwf : WfRecord) (hacc : (init_wf_record st pwf).2 = OK)
    (_hn : pwf.nelm < 2147483648)
    (hf : pwf.ftvl = FieldType.DBF_FLOAT ∨ pwf.ftvl = FieldType.DBF_DOUBLE)
    (hlh : pwf.lopr = pwf.hopr) :
    (read_wf st regs (init_wf_record st pwf).1).1.bptr =
      (read_wf st regs
        { (init_wf_record st pwf).1 with ftvl := FieldType.DBF_USHORT }).1.bptr ∧
    (read_wf st regs (init_wf_record st pwf).1).1.bptr =
      (List.range pwf.nelm).map
        (fun (i : Nat) => (rawAt st regs pwf.inp.card (pwf.inp.signal + i) : ℚ)) := by
  rw [init_wf_record_accepts st pwf hacc]
  have h1 := read_wf_scaled_buffer st regs { pwf with dpvt := 0 } rfl hf
  have h2 := read_wf_raw_buffer st regs
    { pwf with dpvt := 0, ftvl := FieldType.DBF_USHORT } rfl (Or.inl rfl)
  constructor
  · refine h1.trans ?_
    refine Eq.trans ?_ h2.symm
    simp [hlh]
  · refine h1.trans ?_
    simp [hlh, rawAt_offset]

/-- Witness of C11: four floats from signal 2 of card 0, limits both 5. -/
theorem scaled_read_with_equal_limits_is_raw_witness :
    (read_wf reg0 (fun a => (a % 7).toNat) (init_wf_record reg0 wfFlat).1).1.bptr =
      (read_wf reg0 (fun a => (a % 7).toNat)
        { (init_wf_record reg0 wfFlat).1 with ftvl := FieldType.DBF_USHORT }).1.bptr ∧
    (read_wf reg0 (fun a => (a % 7).toNat) (init_wf_record reg0 wfFlat).1).1.bptr =
      (List.range wfFlat.nelm).map
        (fun (i : Nat) =>
          (rawAt reg0 (fun a => (a % 7).toNat) wfFlat.inp.card (wfFlat.inp.signal + i) : ℚ)) :=
  scaled_read_with_equal_limits_is_raw reg0 (fun a => (a % 7).toNat) wfFlat
    (by decide) (by decide) (Or.inl rfl) rfl

/-- C12: for a good waveform record in a floating point format with
`LOPR ≠ HOPR` and a mask among `0x0FFF`, `0x3FFF`, `0xFFFF`, the element of
index `i` that `read_wf` computes from the raw value `r` (which lies in
`0..mask`) is, in exact rational arithmetic, `r * (HOPR - LOPR) / mask + LOPR`;
it is `LOPR` for `r = 0` and `HOPR` for `r = mask`.  For `r = 2048`, `LOPR = 0`,
`HOPR = 10` and mask `0xFFFF` it is `20480 / 65535`, within `1/10000` of `0.3125`. -/
theorem scaled_value_is_linear (st : Registry) (regs : Int → Nat) (pwf : WfRecord)
    (i : Nat) (hd : pwf.dpvt = 0)
    (hf : pwf.ftvl = FieldType.DBF_FLOAT ∨ pwf.ftvl = FieldType.DBF_DOUBLE)
    (hlh : pwf.lopr ≠ pwf.hopr)
    (hm : st.masks pwf.inp.card = 0x0fff ∨ st.masks pwf.inp.card = 0x3fff ∨
      st.masks pwf.inp.card = 0xffff)
    (hi : i < pwf.nelm) :
    (read_wf st regs pwf).1.bptr[i]? =
      some ((rawAt st regs pwf.inp.card (pwf.inp.signal + i) : ℚ) * (pwf.hopr - pwf.lopr) /
        (st.masks pwf.inp.card : ℚ) + pwf.lopr) ∧
    rawAt st regs pwf.inp.card (pwf.inp.signal + i) ≤ st.masks pwf.inp.card ∧
    (rawAt st regs pwf.inp.card (pwf.inp.signal + i) = 0 →
      (read_wf st regs pwf).1.bptr[i]? = some pwf.lopr) ∧
    (rawAt st regs pwf.inp.card (pwf.inp.signal + i) = st.masks pwf.inp.card →
      (read_wf st regs pwf).1.bptr[i]? = some pwf.hopr) ∧
    (read_wf reg0 (fun _ => 2048) wfScaled).1.bptr = [20480 / 65535] ∧
    |(20480 / 65535 : ℚ) - 3125 / 10000| < 1 / 10000 := by
  have hm0 : (st.masks pwf.inp.card : ℚ) ≠ 0 := by
    rcases hm with h | h | h <;> rw [h] <;> norm_num
  have hb := read_wf_scaled_buffer st regs pwf hd hf
  simp only [hlh, ne_eq, not_false_eq_true, if_true, rawAt_offset] at hb
  have hel : (read_wf st regs pwf).1.bptr[i]? =
      some ((rawAt st regs pwf.inp.card (pwf.inp.signal + i) : ℚ) * (pwf.hopr - pwf.lopr) /
        (st.masks pwf.inp.card : ℚ) + pwf.lopr) := by
    rw [hb, getElem?_map_range _ _ _ hi, mul_div_assoc]
  refine ⟨hel, ?_, ?_, ?_, ?_, ?_⟩
  · unfold rawAt
    exact Nat.and_le_right
  · intro h0
    rw [hel, h0]
    simp
  · intro hmax
    rw [hel, hmax]
    congr 1
    field_simp
  · have hex := read_wf_scaled_buffer reg0 (fun _ => 2048) wfScaled rfl (Or.inr rfl)
    rw [hex]
    have hmask : reg0.masks wfScaled.inp.card = 65535 := rfl
    have hand : (2048 : Nat) &&& 65535 = 2048 := by decide
    simp only [hmask, hand]
    norm_num [wfScaled]
  · rw [abs_lt]
    constructor <;> norm_num

/-- Witness of C12: the double of `wfScaled` read from a register holding 2048. -/
theorem scaled_value_is_linear_witness :
    (read_wf reg0 (fun _ => 2048) wfScaled).1.bptr[0]? =
      some ((rawAt reg0 (fun _ => 2048) wfScaled.inp.card (wfScaled.inp.signal + (0 : Nat)) : ℚ) *
        (wfScaled.hopr - wfScaled.lopr) / (reg0.masks wfScaled.inp.card : ℚ) + wfScaled.lopr) :=
  (scaled_value_is_linear reg0 (fun _ => 2048) wfScaled 0 rfl (Or.inr rfl)
    (by norm_num [wfScaled]) (Or.inr (Or.inr rfl)) (by decide)).1

/-- C13: for an accepted waveform (of fewer than `2^31` elements) in a raw
format, `read_wf` succeeds, sets NORD to NELM and fills the buffer with exactly
NELM elements; the element of index `i` is `register[signal + i] & masks[card]`,
the value `read_ai` puts in RVAL for a good record of signal `signal + i` on the
same registers, and it lies in `0..masks[card]`. -/
theorem raw_batch_matches_single_read (st : Registry) (regs : Int → Nat)
    (pwf : WfRecord) (hacc : (init_wf_record st pwf).2 = OK)
    (_hn : pwf.nelm < 2147483648)
    (hf : pwf.ftvl = FieldType.DBF_USHORT ∨ pwf.ftvl = FieldType.DBF_LONG ∨
      pwf.ftvl = FieldType.DBF_ULONG) :
    (read_wf st regs (init_wf_record st pwf).1).2 = 0 ∧
    (read_wf st regs (init_wf_record st pwf).1).1.nord = pwf.nelm ∧
    (read_wf st regs (init_wf_record st pwf).1).1.bptr.length = pwf.nelm ∧
    ∀ i : Nat, i < pwf.nelm →
      (read_wf st regs (init_wf_record st pwf).1).1.bptr[i]? =
        some (rawAt st regs pwf.inp.card (pwf.inp.signal + i) : ℚ) ∧
      rawAt st regs pwf.inp.card (pwf.inp.signal + i) ≤ st.masks pwf.inp.card ∧
      ∀ pai : AiRecord, pai.dpvt = 0 → pai.inp = ⟨pwf.inp.card, pwf.inp.signal + i⟩ →
        (read_ai st regs pai).2 = 0 ∧
        (read_ai st regs pai).1.rval =
          (rawAt st regs pwf.inp.card (pwf.inp.signal + i) : Int) := by
  rw [init_wf_record_accepts st pwf hacc]
  have hb := read_wf_raw_buffer st regs { pwf with dpvt := 0 } rfl hf
  have hg := read_wf_good st regs { pwf with dpvt := 0 } rfl
  simp only [rawAt_offset] at hb
  refine ⟨hg.1, hg.2, ?_, ?_⟩
  · rw [hb]
    simp
  · intro i hi
    refine ⟨?_, ?_, ?_⟩
    · rw [hb]
      exact getElem?_map_range _ _ _ hi
    · unfold rawAt
      exact Nat.and_le_right
    · intro pai hd hinp
      simp [read_ai, hd, hinp, rawAt]

/-- Witness of C13: four unsigned shorts from signal 2 of card 0. -/
theorem raw_batch_matches_single_read_witness :
    (read_wf reg0 (fun a => (a % 7).toNat) (init_wf_record reg0 wfRaw).1).2 = 0 ∧
    (read_wf reg0 (fun a => (a % 7).toNat) (init_wf_record reg0 wfRaw).1).1.nord = wfRaw.nelm ∧
    (read_wf reg0 (fun a => (a % 7).toNat) (init_wf_record reg0 wfRaw).1).1.bptr.length =
      wfRaw.nelm :=
  have h := raw_batch_matches_single_read reg0 (fun a => (a % 7).toNat) wfRaw
    (by decide) (by decide) (Or.inl rfl)
  ⟨h.1, h.2.1, h.2.2.1⟩

/-! ## Interrupt service -/

/-- After `k` runs of the interrupt service routine of a card, its counter has
grown by `k`, nothing else has changed, and the event of the card has been
posted `k` times when it is positive, never otherwise. -/
theorem serviceTimes_spec (c : Int) (k : Nat) (st : Registry) :
    (serviceTimes c k st).1 =
      { st with trigCnt := Function.update st.trigCnt c (st.trigCnt c + k) } ∧
    (serviceTimes c k st).2 =
      if st.events c > 0 then List.replicate k (st.events c) else [] := by
  induction k generalizing st with
  | zero =>
    cases st
    simp [serviceTimes]
  | succ k ih =>
    obtain ⟨h1, h2⟩ := ih (icv150_int_service st c).st
    simp only [serviceTimes, h1, h2]
    constructor
    · cases st
      simp [icv150_int_service, Function.update_same, add_assoc, add_comm 1 (k : Int)]
    · by_cases he : st.events c > 0
      · simp [icv150_int_service, he, List.replicate_succ]
      · simp [icv150_int_service, he]

/-- C14: from the state left by a successful `icv150CfgExtTrig c e` (card
present, `e` in `0..255`), `k` consecutive runs of `icv150_int_service c`, with
`k` below the `int` overflow, leave `trigCnt[c] = k` and every other field as
it was; the event `e` is posted by each run when `e ≠ 0` and by none when
`e = 0`; and one run on any state changes nothing but `trigCnt[c]`, which it
increments. -/
theorem trigger_count_counts_interrupts (bus : Bus) (st : Registry) (c e : Int)
    (k : Nat) (_hc : 0 ≤ c ∧ c < 4) (hp : mapAddress bus c ≠ 0)
    (he : 0 ≤ e ∧ e ≤ 255) (_hk : k < 2147483648) :
    (icv150CfgExtTrig bus st c e).msg = Msg.done ∧
    (serviceTimes c k (icv150CfgExtTrig bus st c e).st).1.trigCnt c = k ∧
    (serviceTimes c k (icv150CfgExtTrig bus st c e).st).1 =
      { (icv150CfgExtTrig bus st c e).st with
        trigCnt := Function.update (icv150CfgExtTrig bus st c e).st.trigCnt c k } ∧
    (serviceTimes c k (icv150CfgExtTrig bus st c e).st).2 =
      (if e ≠ 0 then List.replicate k e else []) ∧
    (∀ s : Registry, s.events c = e →
      (icv150_int_service s c).posted = (if e ≠ 0 then some e else none) ∧
      (icv150_int_service s c).st =
        { s with trigCnt := Function.update s.trigCnt c (s.trigCnt c + 1) }) := by
  have hne : ¬ (e < 0 ∨ e > 255) := by omega
  have hev : (icv150CfgExtTrig bus st c e).st.events c = e := by
    simp [icv150CfgExtTrig, hp, hne]
  have htc : (icv150CfgExtTrig bus st c e).st.trigCnt c = 0 := by
    simp [icv150CfgExtTrig, hp, hne]
  have hpos : (e > 0) ↔ e ≠ 0 := by omega
  obtain ⟨h1, h2⟩ := serviceTimes_spec c k (icv150CfgExtTrig bus st c e).st
  refine ⟨by simp [icv150CfgExtTrig, hp, hne], ?_, ?_, ?_, ?_⟩
  · rw [h1]
    simp [htc]
  · rw [h1, htc]
    simp
  · rw [h2, hev]
    by_cases h0 : e = 0
    · simp [h0]
    · have : e > 0 := hpos.mpr h0
      simp [h0, this]
  · intro s hs
    constructor
    · by_cases h0 : e = 0
      · simp [icv150_int_service, hs, h0]
      · have : e > 0 := hpos.mpr h0
        simp [icv150_int_service, hs, h0, this]
    · rfl

/-- Witness of C14: three interrupts on card 0 of `bus0` after event 7 was set. -/
theorem trigger_count_counts_interrupts_witness :
    (serviceTimes 0 3 (icv150CfgExtTrig bus0 reg0 0 7).st).1.trigCnt 0 = (3 : Nat) ∧
    (serviceTimes 0 3 (icv150CfgExtTrig bus0 reg0 0 7).st).2 =
      (if (7 : Int) ≠ 0 then List.replicate 3 7 else []) :=
  have h := trigger_count_counts_interrupts bus0 reg0 0 7 3
    (by decide) (by decide) (by decide) (by decide)
  ⟨h.2.1, h.2.2.2.1⟩

/-! ## ADC resolution -/

/-- C17: on a present card `c` in `0..3`, `icv150CfgAdc c bits` with `bits` 12,
14 or 16 succeeds, sets `masks[c]` to `2^bits - 1` (`0x0FFF`, `0x3FFF`,
`0xFFFF`) and changes nothing else, without any register store; for any other
`bits` it fails and leaves the global arrays, `masks[c]` included, as they were. -/
theorem cfgAdc_sets_mask (bus : Bus) (st : Registry) (c bits : Int)
    (_hc : 0 ≤ c ∧ c < 4) (hp : mapAddress bus c ≠ 0) :
    ((bits = 12 ∨ bits = 14 ∨ bits = 16) →
      (icv150CfgAdc bus st c bits).msg = Msg.done ∧
      (icv150CfgAdc bus st c bits).st.masks c = 2 ^ bits.toNat - 1 ∧
      (icv150CfgAdc bus st c bits).st =
        { st with masks := Function.update st.masks c (2 ^ bits.toNat - 1) } ∧
      (icv150CfgAdc bus st c bits).writes = []) ∧
    ((icv150CfgAdc bus st c 12).st.masks c = 0x0fff ∧
     (icv150CfgAdc bus st c 14).st.masks c = 0x3fff ∧
     (icv150CfgAdc bus st c 16).st.masks c = 0xffff) ∧
    (¬ (bits = 12 ∨ bits = 14 ∨ bits = 16) →
      (icv150CfgAdc bus st c bits).msg = Msg.invalidArg ∧
      (icv150CfgAdc bus st c bits).st = st ∧
      (icv150CfgAdc bus st c bits).st.masks c = st.masks c ∧
      (icv150CfgAdc bus st c bits).writes = []) := by
  refine ⟨?_, ?_, ?_⟩
  · rintro (h | h | h) <;> subst h <;> simp [icv150CfgAdc, hp]
  · simp [icv150CfgAdc, hp]
  · intro h
    have h12 : bits ≠ 12 := fun h' => h (Or.inl h')
    have h14 : bits ≠ 14 := fun h' => h (Or.inr (Or.inl h'))
    have h16 : bits ≠ 16 := fun h' => h (Or.inr (Or.inr h'))
    simp [icv150CfgAdc, hp, h12, h14, h16]

/-- Witness of C17: a 14 bit ADC on card 0 of `bus0`. -/
theorem cfgAdc_sets_mask_witness :
    (icv150CfgAdc bus0 reg0 0 12).st.masks 0 = 0x0fff ∧
    (icv150CfgAdc bus0 reg0 0 14).st.masks 0 = 0x3fff ∧
    (icv150CfgAdc bus0 reg0 0 16).st.masks 0 = 0xffff :=
  (cfgAdc_sets_mask bus0 reg0 0 14 (by decide) (by decide)).2.1

/-! ## Initialization -/

/-- The value stored in the interrupt register of card `card`: the vector
`0xC0 + card` in the high byte, `0xFB` (level 2 and the enable bit) in the low one. -/
theorem itReg_value (card : Int) (h : 0 ≤ card ∧ card < 4) :
    itReg (IT_VECTOR + card) = 0xC0FB + 256 * card.toNat := by
  obtain ⟨h0, h4⟩ := h
  interval_cases card <;> decide

/-- When the base address maps and no interrupt call fails for a present slot,
`init` tests the four slots, records exactly the present ones, connects and
enables their interrupts, and returns `OK`. -/
theorem init_all_ok (bus : Bus) (caps : IntCaps) (st : Registry) (a : Int)
    (hmap : bus.devMapAddr ICV150_BASE = some a)
    (hint : ∀ slot : Int, 0 ≤ slot → slot < 4 →
      bus.devReadProbe (a + slot * 0x1000) = true →
      caps.devConnectInterruptVME (0xC0 + slot) slot = true ∧
      caps.devEnableInterruptLevelVME 2 slot = true) :
    (init bus caps st 0).status = OK ∧
    (init bus caps st 0).probes = [a, a + 0x1000, a + 0x2000, a + 0x3000] ∧
    (init bus caps st 0).st = { st with icv150 := (init bus caps st 0).st.icv150 } ∧
    (∀ slot : Int, 0 ≤ slot → slot < 4 →
      (bus.devReadProbe (a + slot * 0x1000) = true →
        (init bus caps st 0).st.icv150 slot = a + slot * 0x1000 ∧
        (0xC0 + slot, slot) ∈ (init bus caps st 0).vectors ∧
        (⟨a + slot * 0x1000 + 0x800, itReg (0xC0 + slot)⟩ : Write) ∈
          (init bus caps st 0).writes) ∧
      (bus.devReadProbe (a + slot * 0x1000) = false →
        (init bus caps st 0).st.icv150 slot = st.icv150 slot ∧
        (0xC0 + slot, slot) ∉ (init bus caps st 0).vectors)) := by
  have h0 := hint 0 (by norm_num) (by norm_num)
  have h1 := hint 1 (by norm_num) (by norm_num)
  have h2 := hint 2 (by norm_num) (by norm_num)
  have h3 := hint 3 (by norm_num) (by norm_num)
  norm_num at h0 h1 h2 h3
  have e2 : a + 4096 + 4096 = a + 8192 := by ring
  have e3 : a + 8192 + 4096 = a + 12288 := by ring
  cases p0 : bus.devReadProbe a <;> cases p1 : bus.devReadProbe (a + 4096) <;>
    cases p2 : bus.devReadProbe (a + 8192) <;> cases p3 : bus.devReadProbe (a + 12288) <;>
    simp only [p0, p1, p2, p3, true_implies, Bool.false_eq_true, false_implies] at h0 h1 h2 h3 <;>
    (refine ⟨?_, ?_, ?_, ?_⟩
     · simp [init, hmap, initCards, ICV150_SIZE, IT_VECTOR, IT_LEVEL, e2, e3,
         p0, p1, p2, p3, h0, h1, h2, h3]
     · simp [init, hmap, initCards, ICV150_SIZE, IT_VECTOR, IT_LEVEL, e2, e3,
         p0, p1, p2, p3, h0, h1, h2, h3]
     · simp [init, hmap, initCards, ICV150_SIZE, IT_VECTOR, IT_LEVEL, e2, e3,
         p0, p1, p2, p3, h0, h1, h2, h3]
     · intro slot hs0 hs4
       interval_cases slot <;>
         simp [init, hmap, initCards, ICV150_SIZE, IT_VECTOR, IT_LEVEL, CS_WIT, e2, e3,
           p0, p1, p2, p3, h0, h1, h2, h3])

/-- C15, as stated, fails: in `busTwo` cards 0 and 1 are present; when the
connection of the interrupt routine of card 0 fails, `init 0` returns `ERROR`
after the probe of slot 0 alone, and card 1 is neither probed nor recorded. -/
theorem init_interrupt_failure_blocks_later_slots :
    busTwo.devReadProbe 0x501000 = true ∧
    (init busTwo capsFail0 initRegistry 0).status = ERROR ∧
    (init busTwo capsFail0 initRegistry 0).probes = [0x500000] ∧
    (init busTwo capsFail0 initRegistry 0).st.icv150 1 = 0 := by
  refine ⟨by decide, by decide, by decide, by decide⟩

/-- C15, amended: when the base address maps, the interrupt calls of the
earlier present slots succeed, and the interrupt registration or the
interrupt-level enable fails for a present slot `k`, `init 0` returns `ERROR`
at once: slot `k` is recorded in `icv150` and is the last slot probed, and no
later slot is probed or recorded. -/
theorem init_stops_at_interrupt_failure (bus : Bus) (caps : IntCaps) (st : Registry)
    (a k : Int) (hk : 0 ≤ k ∧ k < 4)
    (hmap : bus.devMapAddr ICV150_BASE = some a)
    (hearlier : ∀ j : Int, 0 ≤ j → j < k →
      bus.devReadProbe (a + j * 0x1000) = true →
      caps.devConnectInterruptVME (0xC0 + j) j = true ∧
      caps.devEnableInterruptLevelVME 2 j = true)
    (hpres : bus.devReadProbe (a + k * 0x1000) = true)
    (hfail : caps.devConnectInterruptVME (0xC0 + k) k = false ∨
      caps.devEnableInterruptLevelVME 2 k = false) :
    (init bus caps st 0).status = ERROR ∧
    (init bus caps st 0).st.icv150 k = a + k * 0x1000 ∧
    (init bus caps st 0).probes.getLast? = some (a + k * 0x1000) ∧
    (∀ j : Int, k < j → j < 4 →
      a + j * 0x1000 ∉ (init bus caps st 0).probes ∧
      (init bus caps st 0).st.icv150 j = st.icv150 j) := by
  obtain ⟨hk0, hk4⟩ := hk
  have e2 : a + 4096 + 4096 = a + 8192 := by ring
  have e3 : a + 8192 + 4096 = a + 12288 := by ring
  interval_cases k
  · norm_num at hpres hfail
    clear hearlier
    cases c0 : caps.devConnectInterruptVME 192 0 <;>
      (refine ⟨?_, ?_, ?_, ?_⟩
       · simp_all [init, initCards, ICV150_SIZE, IT_VECTOR, IT_LEVEL]
       · simp_all [init, initCards, ICV150_SIZE, IT_VECTOR, IT_LEVEL]
       · simp_all [init, initCards, ICV150_SIZE, IT_VECTOR, IT_LEVEL]
       · intro j hj0 hj4
         interval_cases j <;>
           simp_all [init, initCards, ICV150_SIZE, IT_VECTOR, IT_LEVEL])
  · have h0 := hearlier 0 (by norm_num) (by norm_num)
    norm_num at hpres hfail h0
    clear hearlier
    cases p0 : bus.devReadProbe a <;> cases c1 : caps.devConnectInterruptVME 193 1 <;>
      (refine ⟨?_, ?_, ?_, ?_⟩
       · simp_all [init, initCards, ICV150_SIZE, IT_VECTOR, IT_LEVEL]
       · simp_all [init, initCards, ICV150_SIZE, IT_VECTOR, IT_LEVEL]
       · simp_all [init, initCards, ICV150_SIZE, IT_VECTOR, IT_LEVEL]
       · intro j hj0 hj4
         interval_cases j <;>
           simp_all [init, initCards, ICV150_SIZE, IT_VECTOR, IT_LEVEL])
  · have h0 := hearlier 0 (by norm_num) (by norm_num)
    have h1 := hearlier 1 (by norm_num) (by norm_num)
    norm_num at hpres hfail h0 h1
    clear hearlier
    cases p0 : bus.devReadProbe a <;> cases p1 : bus.devReadProbe (a + 4096) <;>
      cases c2 : caps.devConnectInterruptVME 194 2 <;>
      (refine ⟨?_, ?_, ?_, ?_⟩
       · simp_all [init, initCards, ICV150_SIZE, IT_VECTOR, IT_LEVEL]
       · simp_all [init, initCards, ICV150_SIZE, IT_VECTOR, IT_LEVEL]
       · simp_all [init, initCards, ICV150_SIZE, IT_VECTOR, IT_LEVEL]
       · intro j hj0 hj4
         have hj : j = 3 := by omega
         subst hj
         simp_all [init, initCards, ICV150_SIZE, IT_VECTOR, IT_LEVEL])
  · have h0 := hearlier 0 (by norm_num) (by norm_num)
    have h1 := hearlier 1 (by norm_num) (by norm_num)
    have h2 := hearlier 2 (by norm_num) (by norm_num)
    norm_num at hpres hfail h0 h1 h2
    clear hearlier
    cases p0 : bus.devReadProbe a <;> cases p1 : bus.devReadProbe (a + 4096) <;>
      cases p2 : bus.devReadProbe (a + 8192) <;>
      cases c3 : caps.devConnectInterruptVME 195 3 <;>
      (refine ⟨?_, ?_, ?_, ?_⟩
       · simp_all [init, initCards, ICV150_SIZE, IT_VECTOR, IT_LEVEL]
       · simp_all [init, initCards, ICV150_SIZE, IT_VECTOR, IT_LEVEL]
       · simp_all [init, initCards, ICV150_SIZE, IT_VECTOR, IT_LEVEL]
       · intro j hj0 hj4
         omega)

/-- Witness of the amended C15: `busTwo` with the failing connection for card 0. -/
theorem init_stops_at_interrupt_failure_witness :
    (init busTwo capsFail0 initRegistry 0).status = ERROR ∧
    (init busTwo capsFail0 initRegistry 0).st.icv150 0 = 0x500000 + 0 * 0x1000 ∧
    (init busTwo capsFail0 initRegistry 0).probes.getLast? = some (0x500000 + 0 * 0x1000) ∧
    (∀ j : Int, 0 < j → j < 4 →
      0x500000 + j * 0x1000 ∉ (init busTwo capsFail0 initRegistry 0).probes ∧
      (init busTwo capsFail0 initRegistry 0).st.icv150 j = initRegistry.icv150 j) :=
  init_stops_at_interrupt_failure busTwo capsFail0 initRegistry 0x500000 0
    (by decide) rfl (fun j h0 hlt => absurd hlt (not_lt.mpr h0)) (by decide)
    (Or.inl (by decide))

/-- C16, as stated, fails: when the base address cannot be mapped, `init 0`
returns `ERROR` without probing any slot, although no interrupt call fails. -/
theorem init_fails_on_unmapped_base :
    (init busUnmapped capsOk initRegistry 0).status = ERROR ∧
    (init busUnmapped capsOk initRegistry 0).probes = [] ∧
    (∀ vector card : Int, capsOk.devConnectInterruptVME vector card = true) ∧
    (∀ level card : Int, capsOk.devEnableInterruptLevelVME level card = true) := by
  refine ⟨by decide, by decide, ?_, ?_⟩ <;> intro _ _ <;> rfl

/-- C16, amended: when the base address maps to `a` and no interrupt call fails
for a present slot, `init 0` probes the four slots at `a + slot * 0x1000`, sets
`icv150[slot]` to that address exactly for the slots whose probe succeeds and
leaves the other entries and all other arrays as they were, connects the
routine of each present slot to the vector `0xC0 + slot`, stores the vector and
the enable bit in its interrupt register, and returns `OK`.  It returns an
error only if the base address cannot be mapped or if the interrupt
registration or the interrupt-level enable fails for a present slot; when the
base address cannot be mapped, nothing is probed or changed. -/
theorem init_discovery_result (bus : Bus) (caps : IntCaps) (st : Registry) :
    (∀ a : Int, bus.devMapAddr ICV150_BASE = some a →
      (∀ slot : Int, 0 ≤ slot → slot < 4 →
        bus.devReadProbe (a + slot * 0x1000) = true →
        caps.devConnectInterruptVME (0xC0 + slot) slot = true ∧
        caps.devEnableInterruptLevelVME 2 slot = true) →
      (init bus caps st 0).status = OK ∧
      (init bus caps st 0).probes = [a, a + 0x1000, a + 0x2000, a + 0x3000] ∧
      (init bus caps st 0).st = { st with icv150 := (init bus caps st 0).st.icv150 } ∧
      (∀ slot : Int, 0 ≤ slot → slot < 4 →
        (bus.devReadProbe (a + slot * 0x1000) = true →
          (init bus caps st 0).st.icv150 slot = a + slot * 0x1000 ∧
          (0xC0 + slot, slot) ∈ (init bus caps st 0).vectors ∧
          (⟨a + slot * 0x1000 + 0x800, itReg (0xC0 + slot)⟩ : Write) ∈
            (init bus caps st 0).writes) ∧
        (bus.devReadProbe (a + slot * 0x1000) = false →
          (init bus caps st 0).st.icv150 slot = st.icv150 slot ∧
          (0xC0 + slot, slot) ∉ (init bus caps st 0).vectors))) ∧
    ((init bus caps st 0).status ≠ OK →
      bus.devMapAddr ICV150_BASE = none ∨
      ∃ a slot : Int, bus.devMapAddr ICV150_BASE = some a ∧ 0 ≤ slot ∧ slot < 4 ∧
        bus.devReadProbe (a + slot * 0x1000) = true ∧
        (caps.devConnectInterruptVME (0xC0 + slot) slot = false ∨
         caps.devEnableInterruptLevelVME 2 slot = false)) ∧
    (bus.devMapAddr ICV150_BASE = none →
      (init bus caps st 0).status = ERROR ∧ (init bus caps st 0).probes = [] ∧
      (init bus caps st 0).st = st) := by
  refine ⟨fun a hmap hint => init_all_ok bus caps st a hmap hint, ?_, ?_⟩
  · intro hne
    cases hmap : bus.devMapAddr ICV150_BASE with
    | none => exact Or.inl rfl
    | some a =>
      right
      by_contra hno
      apply hne
      refine (init_all_ok bus caps st a hmap ?_).1
      intro slot h0 h4 hp
      by_contra hbad
      apply hno
      refine ⟨a, slot, rfl, h0, h4, hp, ?_⟩
      cases hcn : caps.devConnectInterruptVME (0xC0 + slot) slot
      · exact Or.inl rfl
      · cases hen : caps.devEnableInterruptLevelVME 2 slot
        · exact Or.inr rfl
        · exact absurd ⟨hcn, hen⟩ hbad
  · intro hmap
    simp [init, hmap]

/-- Witness of the amended C16: `busTwo`, all interrupt calls succeeding. -/
theorem init_discovery_result_witness :
    (init busTwo capsOk initRegistry 0).status = OK ∧
    (init busTwo capsOk initRegistry 0).probes =
      [0x500000, 0x500000 + 0x1000, 0x500000 + 0x2000, 0x500000 + 0x3000] :=
  have h := (init_discovery_result busTwo capsOk initRegistry).1 0x500000 rfl
    (fun _ _ _ _ => ⟨rfl, rfl⟩)
  ⟨h.1, h.2.1⟩

/-! ## Bounds of the global arrays -/

/-- A configuration command keeps the bounds of every slot, and leaves each
counter as it was or at 0. -/
theorem op_preserves_slot (bus : Bus) (st : Registry) (op : Op) (c : Int)
    (h : SlotInv st c) :
    SlotInv (op.run bus st).st c ∧
    ((op.run bus st).st.trigCnt c = st.trigCnt c ∨ (op.run bus st).st.trigCnt c = 0) := by
  obtain ⟨hl, hm, he, ht⟩ := h
  cases op with
  | cfgAdc card resolution =>
    simp only [Op.run, icv150CfgAdc, SlotInv]
    split_ifs <;> simp only [Function.update_apply] <;> (try split_ifs) <;> simp_all
  | cfgScan card signal =>
    simp only [Op.run, icv150CfgScan, SlotInv, ICV150_MAXCHAN]
    split_ifs with h1 h2
    · simp_all
    · simp_all
    · simp only [Function.update_apply]
      split_ifs
      · refine ⟨⟨⟨by omega, by omega⟩, hm, he, ht⟩, by simp⟩
      · exact ⟨⟨hl, hm, he, ht⟩, by simp⟩
  | overSampling card on_ =>
    simp only [Op.run, icv150OverSampling, SlotInv]
    split_ifs <;> simp_all
  | cfgGain card signal gain =>
    simp only [Op.run, icv150CfgGain, SlotInv]
    split_ifs <;> simp_all
  | storeGains card =>
    simp only [Op.run, icv150StoreGains, SlotInv]
    split_ifs <;> simp_all
  | cfgExtTrig card event =>
    simp only [Op.run, icv150CfgExtTrig, SlotInv]
    split_ifs with h1 h2
    · simp_all
    · simp_all
    · simp only [Function.update_apply]
      split_ifs
      · refine ⟨⟨hl, hm, ⟨by omega, by omega⟩, le_refl 0⟩, by simp⟩
      · exact ⟨⟨hl, hm, he, ht⟩, by simp⟩
  | cfgAutoScan card =>
    simp only [Op.run, icv150CfgAutoScan, SlotInv]
    split_ifs with h1
    · simp_all
    · simp only [Function.update_apply]
      split_ifs
      · exact ⟨⟨hl, hm, he, le_refl 0⟩, by simp⟩
      · exact ⟨⟨hl, hm, he, ht⟩, by simp⟩
  | softTrig card =>
    simp only [Op.run, icv150SoftTrig, SlotInv]
    split_ifs <;> simp_all

/-- The loop of `init` changes no array other than `icv150`. -/
theorem initCards_frame (bus : Bus) (caps : IntCaps) (n : Nat) :
    ∀ (card icv150Addr : Int) (st : Registry),
      (initCards bus caps n card icv150Addr st).st.masks = st.masks ∧
      (initCards bus caps n card icv150Addr st).st.events = st.events ∧
      (initCards bus caps n card icv150Addr st).st.autoScan = st.autoScan ∧
      (initCards bus caps n card icv150Addr st).st.lastChan = st.lastChan ∧
      (initCards bus caps n card icv150Addr st).st.trigCnt = st.trigCnt := by
  induction n with
  | zero => intro card icv150Addr st; simp [initCards]
  | succ n ih =>
    intro card icv150Addr st
    simp only [initCards]
    split_ifs
    all_goals first
      | exact ih (card + 1) (icv150Addr + ICV150_SIZE)
          { st with icv150 := Function.update st.icv150 card icv150Addr }
      | exact ih (card + 1) (icv150Addr + ICV150_SIZE) st
      | simp

/-- `init` changes no array other than `icv150`. -/
theorem init_frame (bus : Bus) (caps : IntCaps) (st : Registry) (after : Int) :
    (init bus caps st after).st.masks = st.masks ∧
    (init bus caps st after).st.events = st.events ∧
    (init bus caps st after).st.autoScan = st.autoScan ∧
    (init bus caps st after).st.lastChan = st.lastChan ∧
    (init bus caps st after).st.trigCnt = st.trigCnt := by
  unfold init
  split_ifs
  · simp
  · cases h : bus.devMapAddr ICV150_BASE with
    | none => simp
    | some a => simpa using initCards_frame bus caps 4 0 a st

/-- One call keeps the bounds of every slot and raises a counter by at most
one, and only when it is a run of the interrupt service routine. -/
theorem call_preserves_slot (st : Registry) (call : Call) (c : Int)
    (h : SlotInv st c) :
    SlotInv (call.run st) c ∧
    (call.run st).trigCnt c ≤ st.trigCnt c + (if call.isService then 1 else 0) := by
  cases call with
  | config bus op =>
    obtain ⟨h1, h2⟩ := op_preserves_slot bus st op c h
    refine ⟨h1, ?_⟩
    have ht : 0 ≤ st.trigCnt c := h.2.2.2
    simp only [Call.run, Call.isService]
    rcases h2 with h2 | h2 <;> rw [h2] <;> simp [ht]
  | service card =>
    obtain ⟨hl, hm, he, ht⟩ := h
    simp only [Call.run, Call.isService, icv150_int_service, SlotInv,
      Function.update_apply]
    split_ifs with hcc
    · subst hcc
      exact ⟨⟨hl, hm, he, by omega⟩, by simp⟩
    · exact ⟨⟨hl, hm, he, ht⟩, by simp⟩
  | init bus caps after =>
    obtain ⟨f1, f2, f3, f4, f5⟩ := init_frame bus caps st after
    simp only [Call.run, Call.isService, SlotInv, f1, f2, f4, f5]
    exact ⟨h, by simp⟩

/-- A sequence of calls keeps the bounds of every slot, and a counter grows by
at most the number of runs of the interrupt service routine. -/
theorem runCalls_preserves_slot (calls : List Call) (c : Int) :
    ∀ st : Registry, SlotInv st c →
      SlotInv (runCalls st calls) c ∧
      (runCalls st calls).trigCnt c ≤ st.trigCnt c + serviceCount calls := by
  induction calls with
  | nil =>
    intro st h
    simp [runCalls, serviceCount, h]
  | cons call calls ih =>
    intro st h
    obtain ⟨h1, h2⟩ := call_preserves_slot st call c h
    obtain ⟨h3, h4⟩ := ih (call.run st) h1
    have hrun : runCalls st (call :: calls) = runCalls (call.run st) calls := rfl
    have hcnt : (serviceCount (call :: calls) : Int) =
        (if call.isService then 1 else 0) + serviceCount calls := by
      unfold serviceCount
      rw [List.countP_cons]
      split_ifs <;> push_cast <;> ring
    rw [hrun, hcnt]
    exact ⟨h3, by omega⟩

/-- C18: in the initial state and after every finite sequence of calls of the
configuration functions, of `icv150_int_service` and of `init`, made with card
numbers in `0..3`, other arguments being arbitrary, and with fewer than `2^31`
interrupts serviced, every card satisfies `0 ≤ lastChan < 128`, `masks` among
`0x0FFF`, `0x3FFF`, `0xFFFF`, `events` in `0..255` and `0 ≤ trigCnt`, the
counter staying below the `int` overflow. -/
theorem registry_invariant (calls : List Call) (c : Int)
    (_hcards : ∀ call ∈ calls, call.cardOk)
    (hcount : serviceCount calls < 2147483648)
    (_hc : 0 ≤ c ∧ c < 4) :
    SlotInv initRegistry c ∧
    SlotInv (runCalls initRegistry calls) c ∧
    (runCalls initRegistry calls).trigCnt c < 2147483648 := by
  have h0 : SlotInv initRegistry c := by
    simp [SlotInv, initRegistry]
  obtain ⟨h1, h2⟩ := runCalls_preserves_slot calls c initRegistry h0
  refine ⟨h0, h1, ?_⟩
  have hz : initRegistry.trigCnt c = 0 := rfl
  rw [hz] at h2
  omega

/-- Witness of C18: card 0 after `sampleCalls`. -/
theorem registry_invariant_witness :
    SlotInv initRegistry 0 ∧
    SlotInv (runCalls initRegistry sampleCalls) 0 ∧
    (runCalls initRegistry sampleCalls).trigCnt 0 < 2147483648 :=
  registry_invariant sampleCalls 0
    (by
      intro call hcall
      simp only [sampleCalls, List.mem_cons, List.mem_singleton, List.not_mem_nil,
        or_false] at hcall
      rcases hcall with h | h | h | h | h | h | h | h <;> subst h <;>
        simp [Call.cardOk, Op.card])
    (by decide) (by decide)

end Icv150
